import Mathlib

/-!
Verification development for the `emvpt` EMV payment-terminal core
(`src/emvpt/src/lib.rs`).  The Rust code is shallowly embedded: bytes are
`Nat` (with explicit `% 256` / masking where u8 overflow matters), byte
strings are `List Nat`, the tag store is an association list keyed by the
uppercase-hex tag name, and fallible Rust paths are mirrored by `RunResult`
(`crash` models a Rust panic — failed `unwrap`, failed `assert!`, or an
out-of-bounds slice; `err` models `Err(())`).

External collaborators that are not part of this repository's sources
(the `iso7816_tlv` BER-TLV parser, OpenSSL raw RSA and SHA-1, `chrono`
dates, and the `bcdutil` module which is declared but absent from `src/`)
are modelled from the specification; each such definition carries a doc
comment saying so.
-/

/-- Outcome of running a fallible Rust routine: `crash` models a panic
(failed `unwrap`/`assert!`/slice), `err` models `Err(())`, `ok` carries the
returned value. -/
inductive RunResult (α : Type) where
  | crash : RunResult α
  | err : RunResult α
  | ok (val : α) : RunResult α
deriving DecidableEq, Repr

/-- Association-list lookup, first match wins; models `HashMap::get`
(keys in all the stores are unique, so first-match agrees). -/
def assocGet {α : Type} : List (String × α) → String → Option α
  | [], _ => none
  | (k, v) :: rest, key => if k = key then some v else assocGet rest key

/-- Association-list insert with overwrite; models `HashMap::insert`. -/
def assocInsert {α : Type} : List (String × α) → String → α → List (String × α)
  | [], key, value => [(key, value)]
  | (k, v) :: rest, key, value =>
      if k = key then (key, value) :: rest else (k, v) :: assocInsert rest key value

/-- Uppercase hex digit for a nibble, as in `hex::encode` + `to_uppercase`. -/
def hexDigit (n : Nat) : Char :=
  if n < 10 then Char.ofNat (48 + n) else Char.ofNat (55 + n)

/-- Uppercase hex encoding of a byte string, as the Rust code's
`hex::encode(bytes).to_uppercase()` used for tag-store keys. -/
def hexEncodeUpper (bs : List Nat) : String :=
  String.mk (bs.flatMap (fun b => [hexDigit ((b / 16) % 16), hexDigit (b % 16)]))

/-- The tag store: uppercase-hex tag name to raw value bytes
(`EmvConnection.tags`). -/
def TagStore : Type := List (String × List Nat)

instance : DecidableEq TagStore := by
  unfold TagStore
  infer_instance

/-- Rust `get_tag_value`. -/
def get_tag_value (store : TagStore) (tag_name : String) : Option (List Nat) :=
  assocGet store tag_name

/-- Rust `add_tag`: the key `"80"` is rejected, any other key is inserted,
silently overwriting an existing value. -/
def add_tag (store : TagStore) (tag_name : String) (value : List Nat) : TagStore :=
  if tag_name = "80" then store else assocInsert store tag_name value

/-- Rust macro `get_bit!`: `byte & (1 << bit) != 0`. -/
def get_bit (byte : Nat) (bit : Nat) : Bool :=
  byte &&& (1 <<< bit) != 0

/-- Rust macro `set_bit!` on a `u8`: set or clear the given bit
(`!` is u8 complement, i.e. xor with 255). -/
def set_bit (byte : Nat) (bit : Nat) (bit_value : Bool) : Nat :=
  if bit_value then byte ||| (1 <<< bit) else byte &&& (255 ^^^ (1 <<< bit))

/-- Rust `is_success_response`: trailer has at least two bytes and starts
`90 00`. -/
def is_success_response (response_trailer : List Nat) : Bool :=
  decide (2 ≤ response_trailer.length)
    && response_trailer.getD 0 0 == 0x90 && response_trailer.getD 1 0 == 0x00

/-- Terminal Verification Results record (EMV Book 3 C5), one named Bool
per defined bit, RFU bits unrepresented. -/
structure TerminalVerificationResults where
  offline_data_authentication_was_not_performed : Bool
  sda_failed : Bool
  icc_data_missing : Bool
  card_appears_on_terminal_exception_file : Bool
  dda_failed : Bool
  cda_failed : Bool
  icc_and_terminal_have_different_application_versions : Bool
  expired_application : Bool
  application_not_yet_effective : Bool
  requested_service_not_allowed_for_card_product : Bool
  new_card : Bool
  cardholder_verification_was_not_successful : Bool
  unrecognised_cvm : Bool
  pin_try_limit_exceeded : Bool
  pin_entry_required_and_pin_pad_not_present_or_not_working : Bool
  pin_entry_required_pin_pad_present_but_pin_was_not_entered : Bool
  online_pin_entered : Bool
  transaction_exceeds_floor_limit : Bool
  lower_consecutive_offline_limit_exceeded : Bool
  upper_consecutive_offline_limit_exceeded : Bool
  transaction_selected_randomly_for_online_processing : Bool
  merchant_forced_transaction_online : Bool
  default_tdol_used : Bool
  issuer_authentication_failed : Bool
  script_processing_failed_before_final_generate_ac : Bool
  script_processing_failed_after_final_generate_ac : Bool
deriving DecidableEq, Repr

/-- Rust `impl From<TerminalVerificationResults> for Vec<u8>`: pack the
named booleans into five bytes with `set_bit!`, then push them in order. -/
def tvr_to_bytes (tvr : TerminalVerificationResults) : List Nat :=
  let b1 := set_bit (set_bit (set_bit (set_bit (set_bit (set_bit 0
    7 tvr.offline_data_authentication_was_not_performed)
    6 tvr.sda_failed)
    5 tvr.icc_data_missing)
    4 tvr.card_appears_on_terminal_exception_file)
    3 tvr.dda_failed)
    2 tvr.cda_failed
  let b2 := set_bit (set_bit (set_bit (set_bit (set_bit 0
    7 tvr.icc_and_terminal_have_different_application_versions)
    6 tvr.expired_application)
    5 tvr.application_not_yet_effective)
    4 tvr.requested_service_not_allowed_for_card_product)
    3 tvr.new_card
  let b3 := set_bit (set_bit (set_bit (set_bit (set_bit (set_bit 0
    7 tvr.cardholder_verification_was_not_successful)
    6 tvr.unrecognised_cvm)
    5 tvr.pin_try_limit_exceeded)
    4 tvr.pin_entry_required_and_pin_pad_not_present_or_not_working)
    3 tvr.pin_entry_required_pin_pad_present_but_pin_was_not_entered)
    2 tvr.online_pin_entered
  let b4 := set_bit (set_bit (set_bit (set_bit (set_bit 0
    7 tvr.transaction_exceeds_floor_limit)
    6 tvr.lower_consecutive_offline_limit_exceeded)
    5 tvr.upper_consecutive_offline_limit_exceeded)
    4 tvr.transaction_selected_randomly_for_online_processing)
    3 tvr.merchant_forced_transaction_online
  let b5 := set_bit (set_bit (set_bit (set_bit 0
    7 tvr.default_tdol_used)
    6 tvr.issuer_authentication_failed)
    5 tvr.script_processing_failed_before_final_generate_ac)
    4 tvr.script_processing_failed_after_final_generate_ac
  [b1, b2, b3, b4, b5]

/-- The all-false TVR record. -/
def tvrAllFalse : TerminalVerificationResults :=
  ⟨false, false, false, false, false, false, false, false, false, false,
   false, false, false, false, false, false, false, false, false, false,
   false, false, false, false, false, false⟩

/-- A parsed BER-TLV data object: a tag (1 or 2 raw bytes) with either a
primitive byte value or a list of constructed children. -/
inductive Tlv where
  | prim (tag : List Nat) (value : List Nat) : Tlv
  | cons (tag : List Nat) (children : List Tlv) : Tlv
deriving Repr

/-- Modelled from the spec (§4.2), standing in for the external
`iso7816_tlv` crate: parse a tag of 1 or 2 bytes — if the low 5 bits of
byte 1 are `11111`, byte 2 carries the rest.  Returns the tag bytes and
the remaining input. -/
def parseTag : List Nat → Option (List Nat × List Nat)
  | [] => none
  | b :: rest =>
      if b &&& 0x1F = 0x1F then
        match rest with
        | [] => none
        | b2 :: rest2 => some ([b, b2], rest2)
      else some ([b], rest)

/-- Big-endian byte-list to `Nat`. -/
def beNat (bs : List Nat) : Nat :=
  bs.foldl (fun acc b => acc * 256 + b % 256) 0

/-- Modelled from the spec (§4.2), standing in for the external
`iso7816_tlv` crate: parse a BER length, short form or long form with a
length-of-length byte. -/
def parseLen : List Nat → Option (Nat × List Nat)
  | [] => none
  | b :: rest =>
      if b < 0x80 then some (b, rest)
      else
        let n := b &&& 0x7F
        if n = 0 ∨ rest.length < n then none
        else some (beNat (rest.take n), rest.drop n)

mutual

/-- Modelled from the spec (§4.2), standing in for the external
`iso7816_tlv` crate's `Tlv::parse`: parse one TLV from the front of the
buffer (tag, length, value; constructed values — bit 6 of tag byte 1 set —
recurse), returning it and the leftover bytes.  `fuel` bounds the
recursion; `input.length + 1` always suffices. -/
def parseTlv : Nat → List Nat → Option (Tlv × List Nat)
  | 0, _ => none
  | fuel + 1, bs =>
      match parseTag bs with
      | none => none
      | some (tag, rest) =>
          match parseLen rest with
          | none => none
          | some (len, rest2) =>
              if len ≤ rest2.length then
                let v := rest2.take len
                let leftover := rest2.drop len
                if tag.headD 0 &&& 0x20 = 0x20 then
                  match parseTlvList fuel v with
                  | none => none
                  | some cs => some (.cons tag cs, leftover)
                else some (.prim tag v, leftover)
              else none

/-- Parse a whole buffer as a sequence of TLVs (the children of a
constructed value); fails if any child fails. -/
def parseTlvList : Nat → List Nat → Option (List Tlv)
  | 0, _ => none
  | _ + 1, [] => some []
  | fuel + 1, b :: bs =>
      match parseTlv fuel (b :: bs) with
      | none => none
      | some (t, leftover) =>
          match parseTlvList fuel leftover with
          | none => none
          | some ts => some (t :: ts)

end

/-- BER length encoding used when re-serializing a TLV (`Tlv::to_vec` of
the external crate, modelled from the spec's round-trip property §8). -/
def lenBytes (n : Nat) : List Nat :=
  if n < 0x80 then [n]
  else if n < 0x100 then [0x81, n]
  else [0x82, n / 256 % 256, n % 256]

mutual

/-- Serialization `tag || length || value` of a TLV (`Tlv::to_vec`,
modelled from the spec's round-trip property §8). -/
def tlvToBytes : Tlv → List Nat
  | .prim tag v => tag ++ lenBytes v.length ++ v
  | .cons tag cs => tag ++ lenBytes (tlvListBytes cs).length ++ tlvListBytes cs

/-- Concatenated serialization of a list of TLVs. -/
def tlvListBytes : List Tlv → List Nat
  | [] => []
  | t :: ts => tlvToBytes t ++ tlvListBytes ts

end

mutual

/-- The store effect of Rust `process_tlv` on one parsed TLV: a primitive
is stored under its uppercase-hex tag name via `add_tag`; a constructed
value recurses into its children. -/
def processTlvTree : Tlv → TagStore → TagStore
  | .prim tag v, store => add_tag store (hexEncodeUpper tag) v
  | .cons _ cs, store => processTlvList cs store

/-- `process_tlv` over the children of a constructed value, left to
right. -/
def processTlvList : List Tlv → TagStore → TagStore
  | [], store => store
  | t :: ts, store => processTlvList ts (processTlvTree t store)

end

/-- The loop body of Rust `process_tlv` over a buffer: repeatedly parse a
TLV from the front; on a parse error stop (leftovers are only traced);
otherwise process the TLV and continue on the leftover until it is
empty.  `fuel` bounds the iteration; `buf.length + 1` always suffices. -/
def processBuf : Nat → TagStore → List Nat → TagStore
  | 0, store, _ => store
  | fuel + 1, store, buf =>
      match parseTlv (buf.length + 1) buf with
      | none => store
      | some (t, leftover) =>
          let store2 := processTlvTree t store
          if leftover.isEmpty then store2 else processBuf fuel store2 leftover

/-- Rust `process_tlv` at top level. -/
def process_tlv (store : TagStore) (buf : List Nat) : TagStore :=
  processBuf (buf.length + 1) store buf

/-- Rust free function `parse_tlv`: parse a single TLV, ignoring any
leftover bytes; `None` on a parse error. -/
def parse_tlv (raw_data : List Nat) : Option Tlv :=
  match parseTlv (raw_data.length + 1) raw_data with
  | some (t, _) => some t
  | none => none

/-- The `loop` inside Rust `send_apdu`.  `iface` is the card transport
(`ApduInterface::Function`; `none` models a transport error, whose
`unwrap` panics).  `orig` is the `apdu` parameter, `cmd` the current
`apdu_command`, `acc` the accumulated `response_data` and `trace` the
commands transmitted so far.  On a reply shorter than 2 bytes the Rust
slice `[0..len-2]` panics.  SW1 `61` issues GET RESPONSE `00 C0 00 00 Le`
(`Le = SW2`, or `FF` when SW2 is 0); SW1 `6C` asserts SW2 > 0 and resends
the original command with its last byte replaced by SW2 (an empty
original command would make the `[len-1]` index panic); any other SW1
stops the loop.  On success the full transmit trace, the 2-byte trailer
and the accumulated data are returned.  `fuel` bounds the iteration. -/
def send_apdu_loop (iface : List Nat → Option (List Nat)) (orig : List Nat) :
    Nat → List Nat → List Nat → List (List Nat) →
    RunResult (List (List Nat) × List Nat × List Nat)
  | 0, _, _, _ => .crash
  | fuel + 1, cmd, acc, trace =>
      match iface cmd with
      | none => .crash
      | some reply =>
          if reply.length < 2 then .crash
          else
            let data := reply.take (reply.length - 2)
            let sw1 := reply.getD (reply.length - 2) 0
            let sw2 := reply.getD (reply.length - 1) 0
            if sw1 = 0x61 then
              send_apdu_loop iface orig fuel
                [0x00, 0xC0, 0x00, 0x00, if sw2 = 0 then 0xFF else sw2]
                (acc ++ data) (trace ++ [cmd])
            else if sw1 = 0x6C then
              if sw2 = 0 then .crash
              else if orig.isEmpty then .crash
              else send_apdu_loop iface orig fuel (orig.dropLast ++ [sw2])
                (acc ++ data) (trace ++ [cmd])
            else .ok (trace ++ [cmd], [sw1, sw2], acc ++ data)

/-- Rust `send_apdu`: run the transmit loop, then TLV-parse any
accumulated response data into the tag store.  Returns the
`(trailer, data)` pair (plus the transmit trace) and the updated store. -/
def send_apdu (iface : List Nat → Option (List Nat)) (fuel : Nat)
    (store : TagStore) (apdu : List Nat) :
    RunResult (List (List Nat) × List Nat × List Nat) × TagStore :=
  match send_apdu_loop iface apdu fuel apdu [] [] with
  | .crash => (.crash, store)
  | .err => (.err, store)
  | .ok (trace, trailer, data) =>
      (.ok (trace, trailer, data),
       if data.isEmpty then store else process_tlv store data)

/-- Rust `read_record`: READ RECORD `00 B2 rec (sfi<<3|4) 00`; on a
success trailer with non-empty data returns the record bytes, otherwise
`none`.  The store picks up whatever `send_apdu` TLV-parsed. -/
def read_record (iface : List Nat → Option (List Nat)) (fuel : Nat)
    (store : TagStore) (short_file_identifier : Nat) (record_index : Nat) :
    RunResult (Option (List Nat)) × TagStore :=
  let cmd := [0x00, 0xB2, record_index % 256,
    ((short_file_identifier <<< 3) ||| 0x04) % 256, 0x00]
  match send_apdu iface fuel store cmd with
  | (.crash, s) => (.crash, s)
  | (.err, s) => (.err, s)
  | (.ok (_, trailer, data), s) =>
      if is_success_response trailer && !data.isEmpty
      then (.ok (some data), s) else (.ok none, s)

/-- Nibble expansion of a packed-BCD byte string (high nibble first). -/
def bcdNibbles (bs : List Nat) : List Nat :=
  bs.flatMap (fun b => [b / 16 % 16, b % 16])

/-- Modelled from the spec: `bcdutil::bcd_to_ascii` (the `bcdutil` module
is declared in `lib.rs` but its source file is not under `src/`).  Per
§2/§8 the codec converts packed BCD to an ASCII decimal string, with `cn`
right-padding `F` stripped; a non-digit nibble elsewhere is an error. -/
def bcd_to_ascii (bs : List Nat) : Option (List Nat) :=
  let digits := (bcdNibbles bs).reverse.dropWhile (fun n => n == 0xF) |>.reverse
  if digits.all (fun n => n < 10) then some (digits.map (fun n => n + 48))
  else none

/-- Rust `str::parse::<u32>` on an ASCII byte string: all decimal digits,
non-empty, value within `u32`. -/
def parse_u32 (ascii : List Nat) : Option Nat :=
  if ascii.isEmpty then none
  else if ascii.all (fun c => 48 ≤ c ∧ c ≤ 57) then
    let v := ascii.foldl (fun acc c => acc * 10 + (c - 48)) 0
    if v < 2 ^ 32 then some v else none
  else none

/-- Rust `RsaPublicKey`: modulus and exponent held as hex strings in the
source, embedded here as the decoded big-endian byte strings (the
`new`/`hex::decode` round trip). -/
structure RsaPublicKey where
  modulus : List Nat
  exponent : List Nat
deriving DecidableEq, Repr

/-- Rust `RsaPublicKey::public_encrypt`.  The raw RSA primitive (OpenSSL
`rsa.public_encrypt` with `Padding::NONE`, external to this repository) is
abstracted as `rawOp`; `none` models an OpenSSL error.  The result is
returned only when its length equals the modulus byte length; no byte
values are inspected. -/
def public_encrypt (rawOp : List Nat → Option (List Nat)) (key : RsaPublicKey)
    (plaintext_data : List Nat) : RunResult (List Nat) :=
  match rawOp plaintext_data with
  | none => .err
  | some data =>
      if data.length ≠ key.modulus.length then .err else .ok data

/-- Rust `RsaPublicKey::public_decrypt`.  The raw RSA primitive (OpenSSL
`rsa.public_decrypt` with `Padding::NONE`) is abstracted as `rawOp`;
`none` models an OpenSSL error.  The recovered data must have the modulus
byte length, start with `6A` and end with `BC`; `data[0]` on an empty
result is an index panic. -/
def public_decrypt (rawOp : List Nat → Option (List Nat)) (key : RsaPublicKey)
    (cipher_data : List Nat) : RunResult (List Nat) :=
  match rawOp cipher_data with
  | none => .err
  | some data =>
      if data.length ≠ key.modulus.length then .err
      else
        match data with
        | [] => .crash
        | d0 :: _ =>
            if d0 ≠ 0x6A then .err
            else if data.getLastD 0 ≠ 0xBC then .err
            else .ok data

/-- Rust `CertificateAuthority`: an issuer name and a CA-PK-index-keyed
table of public keys. -/
structure CertificateAuthority where
  issuer : String
  certificates : List (String × RsaPublicKey)
deriving DecidableEq, Repr

/-- Rust `get_ca_public_key`: resolve `(RID, CA PK index)` in the CA
table, both keys uppercase-hex encoded. -/
def get_ca_public_key (ca_data : List (String × CertificateAuthority))
    (rid : List Nat) (index : List Nat) : Option RsaPublicKey :=
  match assocGet ca_data (hexEncodeUpper rid) with
  | some ca => assocGet ca.certificates (hexEncodeUpper index)
  | none => none

/-- Rust `is_certificate_expired`.  The `chrono` date handling is external
to this repository; `duration_days` abstracts
`today.signed_duration_since(expiry_date).num_days()` — the signed number
of days by which the host date is past day 01 of the certificate's MMYY.
The function returns `true` (with only a warning logged) iff that
duration exceeds 30 days. -/
def is_certificate_expired (duration_days : Int) : Bool :=
  decide (30 < duration_days)

/-- Rust `EmvConnection::get_issuer_public_key` (EMV Book 2, 6.3).
Abstracted externals: `sha1` (OpenSSL SHA-1), `rawOp` (OpenSSL raw RSA
under the resolved CA key, as in `public_decrypt`), and `duration_days`
(the `chrono` day difference for the certificate's expiry date, whose
result is computed and discarded by the source).  Reads tags `92`, `9F32`,
`90`, `8F` and `5A` from the store; every failed `unwrap`, failed
`assert_eq!` or out-of-range slice is a `crash`. -/
def get_issuer_public_key (sha1 : List Nat → List Nat)
    (rawOp : List Nat → Option (List Nat)) (duration_days : Int)
    (ca_data : List (String × CertificateAuthority))
    (store : TagStore) (aid : List Nat) : RunResult (List Nat × List Nat) :=
  match get_tag_value store "92" with
  | none => .crash
  | some tag_92_issuer_pk_remainder =>
  match get_tag_value store "9F32" with
  | none => .crash
  | some tag_9f32_issuer_pk_exponent =>
  match get_tag_value store "90" with
  | none => .crash
  | some tag_90_issuer_public_key_certificate =>
  if aid.length < 5 then .crash
  else
  match get_tag_value store "8F" with
  | none => .crash
  | some tag_8f_ca_pk_index =>
  match get_ca_public_key ca_data (aid.take 5) tag_8f_ca_pk_index with
  | none => .crash
  | some ca_pk =>
  match public_decrypt rawOp ca_pk tag_90_issuer_public_key_certificate with
  | .crash => .crash
  | .err => .crash
  | .ok issuer_certificate =>
  if issuer_certificate.length < 2 then .crash
  else if issuer_certificate.getD 1 0 ≠ 0x02 then .err
  else if issuer_certificate.length < 36 then .crash
  else
    let checksum_position := 15 + issuer_certificate.length - 36
    let issuer_certificate_iin := issuer_certificate.drop 2 |>.take 4
    let issuer_pk_leftmost_digits :=
      issuer_certificate.drop 15 |>.take (checksum_position - 15)
    if issuer_certificate.getD 11 0 ≠ 0x01 then .crash
    else if issuer_certificate.getD 12 0 ≠ 0x01 then .crash
    else
      let issuer_certificate_checksum :=
        issuer_certificate.drop checksum_position |>.take 20
      let checksum_data :=
        (issuer_certificate.drop 1 |>.take (checksum_position - 1))
          ++ tag_92_issuer_pk_remainder ++ tag_9f32_issuer_pk_exponent
      if sha1 checksum_data ≠ issuer_certificate_checksum then .err
      else
        match get_tag_value store "5A" with
        | none => .crash
        | some tag_5a_pan =>
        match bcd_to_ascii tag_5a_pan with
        | none => .crash
        | some ascii_pan =>
        match bcd_to_ascii issuer_certificate_iin with
        | none => .crash
        | some ascii_iin =>
        if ascii_pan.length < ascii_iin.length then .crash
        else if ascii_iin ≠ ascii_pan.take ascii_iin.length then .err
        else
          let _expired := is_certificate_expired duration_days
          .ok (issuer_pk_leftmost_digits ++ tag_92_issuer_pk_remainder,
               tag_9f32_issuer_pk_exponent)

/-- Rust `is_non_conforming_one_byte_tag`: EMV tag `95` does not conform
to ISO/IEC 7816 but is accepted as a one-byte tag. -/
def is_non_conforming_one_byte_tag (tag : Nat) : Bool :=
  tag == 0x95

/-- The `loop` of Rust `get_tag_list_tag_values`, consuming the tag list
from the front (cases flattened by list shape).  A one-byte tag is one
accepted by `Tag::try_from` (modelled from the spec §4.11: the low 5 bits
of byte 1 are not all set) or the non-conforming tag `95`, and consumes
`tag, length`; otherwise two bytes form the tag (per the spec model a
two-byte tag whose first byte qualifies is always accepted, so the
source's `Incorrect tag` branch is unreachable) and `tag1, tag2, length`
are consumed.  Out-of-range indexing on a truncated list is a `crash`; a
missing tag or a stored value whose length differs from the stated
length is an `err`; the loop exits successfully when the list is
exhausted. -/
def tag_list_loop (store : TagStore) : List Nat → List Nat → RunResult (List Nat)
  | _, [] => .crash
  | _, [_] => .crash
  | acc, [b, x] =>
      if b &&& 0x1F ≠ 0x1F ∨ is_non_conforming_one_byte_tag b then
        match get_tag_value store (hexEncodeUpper [b]) with
        | none => .err
        | some value => if value.length ≠ x then .err else .ok (acc ++ value)
      else .crash
  | acc, b :: x :: y :: rest3 =>
      if b &&& 0x1F ≠ 0x1F ∨ is_non_conforming_one_byte_tag b then
        match get_tag_value store (hexEncodeUpper [b]) with
        | none => .err
        | some value =>
            if value.length ≠ x then .err
            else tag_list_loop store (acc ++ value) (y :: rest3)
      else
        match get_tag_value store (hexEncodeUpper [b, x]) with
        | none => .err
        | some value =>
            if value.length ≠ y then .err
            else if rest3.isEmpty then .ok (acc ++ value)
            else tag_list_loop store (acc ++ value) rest3

/-- Rust `get_tag_list_tag_values`: a list shorter than 2 bytes is
treated as a single tag (slicing `[0..1]` of an empty list panics);
otherwise the `(tag, length)` pairs are expanded in order via
`tag_list_loop`. -/
def get_tag_list_tag_values (store : TagStore) (tag_list : List Nat) :
    RunResult (List Nat) :=
  if tag_list.length < 2 then
    match tag_list with
    | [] => .crash
    | b :: _ =>
        match get_tag_value store (hexEncodeUpper [b]) with
        | none => .err
        | some value => .ok value
  else tag_list_loop store [] tag_list

/-- Rust `CvmCode`. -/
inductive CvmCode where
  | FailCvmProcessing
  | PlaintextPin
  | EncipheredPinOnline
  | PlaintextPinAndSignature
  | EncipheredPinOffline
  | EncipheredPinOfflineAndSignature
  | Signature
  | NoCvm
deriving DecidableEq, Repr

/-- Rust `TryFrom<u8> for CvmCode`. -/
def cvmCodeOfNat : Nat → Option CvmCode
  | 0x00 => some .FailCvmProcessing
  | 0x01 => some .PlaintextPin
  | 0x02 => some .EncipheredPinOnline
  | 0x03 => some .PlaintextPinAndSignature
  | 0x04 => some .EncipheredPinOffline
  | 0x05 => some .EncipheredPinOfflineAndSignature
  | 0x1E => some .Signature
  | 0x1F => some .NoCvm
  | _ => none

/-- Rust `CvmConditionCode`. -/
inductive CvmConditionCode where
  | Always
  | UnattendedCash
  | NotCashNorPurchaseWithCashback
  | CvmSupported
  | ManualCash
  | PurchaseWithCashback
  | IccCurrencyUnderX
  | IccCurrencyOverX
  | IccCurrencyUnderY
  | IccCurrencyOverY
deriving DecidableEq, Repr

/-- Rust `TryFrom<u8> for CvmConditionCode`. -/
def cvmConditionOfNat : Nat → Option CvmConditionCode
  | 0x00 => some .Always
  | 0x01 => some .UnattendedCash
  | 0x02 => some .NotCashNorPurchaseWithCashback
  | 0x03 => some .CvmSupported
  | 0x04 => some .ManualCash
  | 0x05 => some .PurchaseWithCashback
  | 0x06 => some .IccCurrencyUnderX
  | 0x07 => some .IccCurrencyOverX
  | 0x08 => some .IccCurrencyUnderY
  | 0x09 => some .IccCurrencyOverY
  | _ => none

/-- Rust `CvmRule`. -/
structure CvmRule where
  amount_x : Nat
  amount_y : Nat
  fail_if_unsuccessful : Bool
  code : CvmCode
  condition : CvmConditionCode
deriving DecidableEq, Repr

/-- Rust `Capabilities`. -/
structure Capabilities where
  sda : Bool
  dda : Bool
  cda : Bool
  plaintext_pin : Bool
  enciphered_pin : Bool
  terminal_risk_management : Bool
  issuer_authentication : Bool
deriving DecidableEq, Repr

/-- Rust `UsageControl`. -/
structure UsageControl where
  domestic_cash_transactions : Bool
  international_cash_transactions : Bool
  domestic_goods : Bool
  international_goods : Bool
  domestic_services : Bool
  international_services : Bool
  atms : Bool
  terminals_other_than_atms : Bool
  domestic_cashback : Bool
  international_cashback : Bool
deriving DecidableEq, Repr

/-- Rust `Icc`. -/
structure Icc where
  capabilities : Capabilities
  usage : UsageControl
  cvm_rules : List CvmRule
deriving DecidableEq, Repr

/-- Rust `Icc::new()`: everything false / empty. -/
def iccNew : Icc :=
  ⟨⟨false, false, false, false, false, false, false⟩,
   ⟨false, false, false, false, false, false, false, false, false, false⟩,
   []⟩

/-- The CVM-rule pair loop of `handle_get_processing_options` over
`tag_8e_cvm_list[8..]`: `(code, condition)` pairs, where bit 6 of the
code byte cleared means fail-if-unsuccessful and the top two bits are
discarded by `(code << 2) >> 2` on u8.  An unknown code or condition is a
panicking `unwrap`, as is an odd list length (`assert_eq!`), both mapped
to `none` here. -/
def parseCvmRules (amount_x amount_y : Nat) : List Nat → Option (List CvmRule)
  | [] => some []
  | cvm_code :: cvm_condition_code :: rest =>
      let fail_if_unsuccessful := ! get_bit cvm_code 6
      let code_bits := ((cvm_code <<< 2) % 256) >>> 2
      match cvmCodeOfNat code_bits, cvmConditionOfNat cvm_condition_code with
      | some code, some condition =>
          (parseCvmRules amount_x amount_y rest).map
            (fun rules => ⟨amount_x, amount_y, fail_if_unsuccessful, code, condition⟩ :: rules)
      | _, _ => none
  | _ => none

/-- Split the AFL (tag `94`) into 4-byte groups
`(SFI byte, first record, last record, records for authentication)`;
`none` when the length is not a multiple of 4 (the source's
`assert_eq!(len % 4, 0)` panics). -/
def aflGroups : List Nat → Option (List (Nat × Nat × Nat × Nat))
  | [] => some []
  | a :: b :: c :: d :: rest => (aflGroups rest).map (fun gs => (a, b, c, d) :: gs)
  | _ => none

/-- The inner record loop of the AFL processing in
`handle_get_processing_options`: for each record index, READ RECORD; a
returned record must start with template byte `70` (`assert_eq!`,
otherwise a crash); while the group's authentication count is positive it
is decremented and the record contributes to the data-authentication
buffer — for SFI ≤ 10 the serializations of the `70` template's children
(a failed `parse_tlv(...).unwrap()` crashes; a primitive parse
contributes nothing), for SFI > 10 the raw record bytes.  Returns the
final store, buffer and remaining count. -/
def afl_record_loop (iface : List Nat → Option (List Nat)) (fuel : Nat)
    (short_file_identifier : Nat) :
    List Nat → Nat → TagStore → List Nat → RunResult (TagStore × List Nat × Nat)
  | [], remaining, store, data_authentication => .ok (store, data_authentication, remaining)
  | record_index :: rest, remaining, store, data_authentication =>
      match read_record iface fuel store short_file_identifier record_index with
      | (.crash, _) => .crash
      | (.err, _) => .err
      | (.ok none, store2) =>
          afl_record_loop iface fuel short_file_identifier rest remaining store2
            data_authentication
      | (.ok (some data), store2) =>
          if data.headD 0 ≠ 0x70 then .crash
          else if remaining > 0 then
            if short_file_identifier ≤ 10 then
              match parse_tlv data with
              | none => .crash
              | some t =>
                  match t with
                  | .cons _ children =>
                      afl_record_loop iface fuel short_file_identifier rest
                        (remaining - 1) store2
                        (data_authentication ++ tlvListBytes children)
                  | .prim _ _ =>
                      afl_record_loop iface fuel short_file_identifier rest
                        (remaining - 1) store2 data_authentication
            else
              afl_record_loop iface fuel short_file_identifier rest
                (remaining - 1) store2 (data_authentication ++ data)
          else
            afl_record_loop iface fuel short_file_identifier rest remaining store2
              data_authentication

/-- The outer AFL group loop of `handle_get_processing_options`: for each
4-byte group, traverse record indices `first..=last` (u8 arithmetic: the
range is empty when `last + 1` wraps past `first`). -/
def afl_group_loop (iface : List Nat → Option (List Nat)) (fuel : Nat) :
    List (Nat × Nat × Nat × Nat) → TagStore → List Nat →
    RunResult (TagStore × List Nat)
  | [], store, data_authentication => .ok (store, data_authentication)
  | (sfiByte, first, last, nAuth) :: rest, store, data_authentication =>
      let indices := List.range' first ((last + 1) % 256 - first)
      match afl_record_loop iface fuel (sfiByte >>> 3) indices nAuth store
          data_authentication with
      | .crash => .crash
      | .err => .err
      | .ok (store2, da2, _) => afl_group_loop iface fuel rest store2 da2

/-- The CVM-list decoding block of `handle_get_processing_options`,
entered when AIP byte 1 bit 4 (cardholder verification supported) is set:
tag `8E` is read (a missing tag is a panicking `unwrap`, a list shorter
than 8 bytes an out-of-range slice), amounts X and Y are BCD-decoded and
parsed as `u32`, and the `(code, condition)` pairs are decoded; every
failure here is a panic.  When bit 4 is clear no rules are produced. -/
def cvm_rules_from_store (store : TagStore) (auc_b1 : Nat) : RunResult (List CvmRule) :=
  if get_bit auc_b1 4 then
    match get_tag_value store "8E" with
    | none => .crash
    | some tag_8e_cvm_list =>
        if tag_8e_cvm_list.length < 8 then .crash
        else
          match bcd_to_ascii (tag_8e_cvm_list.take 4),
              bcd_to_ascii (tag_8e_cvm_list.drop 4 |>.take 4) with
          | some a1, some a2 =>
              match parse_u32 a1, parse_u32 a2 with
              | some amount_x, some amount_y =>
                  match parseCvmRules amount_x amount_y (tag_8e_cvm_list.drop 8) with
                  | some rules => .ok rules
                  | none => .crash
              | _, _ => .crash
          | _, _ => .crash
  else .ok []

/-- The tail of `handle_get_processing_options` once the response
template has been folded into the store `s1`: the AFL (tag `94`, a
panicking `unwrap` when absent, `assert_eq!(len % 4, 0)`) is walked
building the data-authentication buffer, tag `82` is decoded into ICC
capabilities (its first byte indexed, so an empty value panics; the CVM
list is read only when bit 4 is set) and tag `9F07` (at least 2 bytes)
into usage flags. -/
def gpo_after_template (iface : List Nat → Option (List Nat)) (fuel : Nat)
    (icc : Icc) (s1 : TagStore) : RunResult (List Nat) × TagStore × Icc :=
  match get_tag_value s1 "94" with
  | none => (.crash, s1, icc)
  | some tag_94_afl =>
  match aflGroups tag_94_afl with
  | none => (.crash, s1, icc)
  | some groups =>
  match afl_group_loop iface fuel groups s1 [] with
  | .crash => (.crash, s1, icc)
  | .err => (.err, s1, icc)
  | .ok (s2, data_authentication) =>
  match get_tag_value s2 "82" with
  | none => (.crash, s2, icc)
  | some tag_82_aip =>
  match tag_82_aip with
  | [] => (.crash, s2, icc)
  | auc_b1 :: _ =>
  let caps1 : Capabilities :=
    { icc.capabilities with sda := get_bit auc_b1 6, dda := get_bit auc_b1 5 }
  match cvm_rules_from_store s2 auc_b1 with
  | .crash => (.crash, s2, icc)
  | .err => (.err, s2, icc)
  | .ok new_rules =>
  let caps2 : Capabilities :=
    { caps1 with terminal_risk_management := get_bit auc_b1 3,
                 issuer_authentication := get_bit auc_b1 2,
                 cda := get_bit auc_b1 0 }
  match get_tag_value s2 "9F07" with
  | none => (.crash, s2, icc)
  | some tag_9f07 =>
  match tag_9f07 with
  | [] => (.crash, s2, icc)
  | auc1 :: tail =>
  match tail with
  | [] => (.crash, s2, icc)
  | auc2 :: _ =>
  let usage : UsageControl :=
    ⟨get_bit auc1 7, get_bit auc1 6, get_bit auc1 5, get_bit auc1 4,
     get_bit auc1 3, get_bit auc1 2, get_bit auc1 1, get_bit auc1 0,
     get_bit auc2 7, get_bit auc2 6⟩
  (.ok data_authentication, s2,
   ⟨caps2, usage, icc.cvm_rules ++ new_rules⟩)

/-- Rust `handle_get_processing_options`.  Sends
`80 A8 00 00 02 83 00`; a non-`9000` trailer is an error.  A template-`80`
response splits into tag `82` (2 bytes) and tag `94` (the rest);
a template-`77` response was already TLV-parsed into the store by
`send_apdu`; anything else is an error.  The remainder of the routine is
`gpo_after_template`. -/
def handle_get_processing_options (iface : List Nat → Option (List Nat))
    (fuel : Nat) (store : TagStore) (icc : Icc) :
    RunResult (List Nat) × TagStore × Icc :=
  match send_apdu iface fuel store [0x80, 0xA8, 0x00, 0x00, 0x02, 0x83, 0x00] with
  | (.crash, s) => (.crash, s, icc)
  | (.err, s) => (.err, s, icc)
  | (.ok (_, trailer, data), s) =>
  if !is_success_response trailer then (.err, s, icc)
  else
  match data with
  | [] => (.crash, s, icc)
  | d0 :: _ =>
  if d0 = 0x80 ∧ data.length < 4 then (.crash, s, icc)
  else if d0 ≠ 0x80 ∧ d0 ≠ 0x77 then (.err, s, icc)
  else
    gpo_after_template iface fuel icc
      (if d0 = 0x80 then
        add_tag (add_tag s "82" (data.drop 2 |>.take 2)) "94" (data.drop 4)
      else s)

/-- A well-formed entry of a tag list: tag bytes of one byte (accepted as
a one-byte tag by the loop: low five bits not all set, or the
non-conforming tag `95`) or two bytes (low five bits of the first byte
all set), paired with the stated value length. -/
def validTagEntry (e : List Nat × Nat) : Prop :=
  match e.1 with
  | [b] => b &&& 0x1F ≠ 0x1F ∨ b = 0x95
  | [b, _] => b &&& 0x1F = 0x1F
  | _ => False

/-- Serialize a list of tag-list entries back to the raw
`tag bytes || length byte` form consumed by `get_tag_list_tag_values`. -/
def flattenTagList (entries : List (List Nat × Nat)) : List Nat :=
  entries.flatMap (fun e => e.1 ++ [e.2])

/-- The concatenation, in order, of the stored values of the listed
tags (absent tags contribute nothing; used only under the hypothesis
that every listed tag is present). -/
def entryValuesConcat (store : TagStore) (entries : List (List Nat × Nat)) : List Nat :=
  entries.flatMap (fun e => (get_tag_value store (hexEncodeUpper e.1)).getD [])

/-- Concrete card transport for exercising
`handle_get_processing_options`: replies to GET PROCESSING OPTIONS with a
template-`80` response whose AIP is `08 00` (cardholder verification not
supported) and whose AFL is empty. -/
def ifaceC1 (cmd : List Nat) : Option (List Nat) :=
  if cmd = [0x80, 0xA8, 0x00, 0x00, 0x02, 0x83, 0x00]
  then some [0x80, 0x02, 0x08, 0x00, 0x90, 0x00] else none

/-- Initial tag store holding only tag `9F07`. -/
def storeC1 : TagStore := [("9F07", [0x00, 0x00])]

/-- The tag store after the `ifaceC1` run of
`handle_get_processing_options`. -/
def gpoOutStore : TagStore :=
  [("9F07", [0x00, 0x00]), ("82", [0x08, 0x00]), ("94", [])]

/-- The ICC state after the `ifaceC1` run: only
`terminal_risk_management` (AIP byte 1 bit 3) is set. -/
def gpoOutIcc : Icc :=
  ⟨⟨false, false, false, false, false, true, false⟩,
   ⟨false, false, false, false, false, false, false, false, false, false⟩,
   []⟩

/-- Concrete transport replying `6C 00` to the command `00 01 02 03` and
`90 00` to its Le-corrected form `00 01 02 00`. -/
def iface6c (cmd : List Nat) : Option (List Nat) :=
  if cmd = [0x00, 0x01, 0x02, 0x00] then some [0x90, 0x00] else some [0x6C, 0x00]

/-- Concrete transport replying `61 05` (data `AB`) to any command except
GET RESPONSE `00 C0 00 00 05`, which gets `CD 90 00`. -/
def iface61 (cmd : List Nat) : Option (List Nat) :=
  if cmd = [0x00, 0xC0, 0x00, 0x00, 0x05] then some [0xCD, 0x90, 0x00]
  else some [0xAB, 0x61, 0x05]

/-- Concrete CA public key with a 36-byte modulus. -/
def capkC4 : RsaPublicKey := ⟨List.replicate 36 1, [3]⟩

/-- Concrete recovered issuer certificate, 36 bytes: header `6A 02`,
IIN `12 34 56 78`, expiry/serial/algorithm/length fields, no leftmost
digits, a 20-byte hash of `07`s, trailer `BC`. -/
def certC4 : List Nat :=
  [0x6A, 0x02, 0x12, 0x34, 0x56, 0x78, 0x01, 0x25, 0x00, 0x00, 0x01,
   0x01, 0x01, 0x00, 0x01] ++ List.replicate 20 0x07 ++ [0xBC]

/-- Abstract SHA-1 instance matching `certC4`'s stored hash. -/
def sha1C4 (_input : List Nat) : List Nat := List.replicate 20 0x07

/-- Raw RSA operation recovering `certC4` from the stored tag `90`. -/
def rawC4 (cipher : List Nat) : Option (List Nat) :=
  if cipher = [0x99] then some certC4 else none

/-- Concrete CA key table for RID `A0 00 00 00 04`, index `01`. -/
def caDataC4 : List (String × CertificateAuthority) :=
  [("A000000004", ⟨"Test CA", [("01", capkC4)]⟩)]

/-- Concrete tag store for a successful `get_issuer_public_key` run. -/
def storeC4 : TagStore :=
  [("92", [0xAA]), ("9F32", [0x03]), ("90", [0x99]), ("8F", [0x01]),
   ("5A", [0x12, 0x34, 0x56, 0x78, 0x90, 0x12])]

/-- Concrete AID whose RID is `A0 00 00 00 04`. -/
def aidC4 : List Nat := [0xA0, 0x00, 0x00, 0x00, 0x04, 0x10, 0x10]

/-- Concrete tag store for exercising the tag-list expander: tags `9A`
(3 bytes), `95` (5 bytes) and `9F37` (4 bytes). -/
def storeC5 : TagStore :=
  [("9A", [0x20, 0x07, 0x24]), ("95", [0, 0, 0, 0, 0]),
   ("9F37", [0x01, 0x23, 0x45, 0x67])]

/-- Concrete well-formed tag-list entries `9A 03`, `95 05`, `9F37 04`
matching `storeC5`. -/
def entriesC5 : List (List Nat × Nat) := [([0x9A], 3), ([0x95], 5), ([0x9F, 0x37], 4)]

/-- Concrete 2-byte-modulus key for exercising the RSA envelope checks. -/
def keyC3 : RsaPublicKey := ⟨[1, 2], [3]⟩

/-- Raw RSA operation returning the valid envelope `6A BC`. -/
def rawOpC3 (_cipher : List Nat) : Option (List Nat) := some [0x6A, 0xBC]

/-- Raw RSA operation returning a 2-byte ciphertext. -/
def rawOpC10 (_plain : List Nat) : Option (List Nat) := some [0x55, 0x66]

theorem assocGet_insert_self {α : Type} (s : List (String × α)) (k : String) (v : α) :
    assocGet (assocInsert s k v) k = some v := by
  induction s with
  | nil => simp [assocInsert, assocGet]
  | cons hd tl ih =>
      obtain ⟨k1, v1⟩ := hd
      by_cases hk : k1 = k
      · simp [assocInsert, hk, assocGet]
      · simp [assocInsert, hk, assocGet, ih]

theorem assocGet_insert_other {α : Type} (s : List (String × α)) (k key : String)
    (v : α) (hne : k ≠ key) :
    assocGet (assocInsert s k v) key = assocGet s key := by
  induction s with
  | nil => simp [assocInsert, assocGet, hne]
  | cons hd tl ih =>
      obtain ⟨k1, v1⟩ := hd
      by_cases hk : k1 = k
      · subst hk
        simp [assocInsert, assocGet, hne]
      · simp [assocInsert, hk, assocGet, ih]

theorem add_tag_get_other (store : TagStore) (k key : String) (v : List Nat)
    (hne : k ≠ key) : get_tag_value (add_tag store k v) key = get_tag_value store key := by
  unfold add_tag get_tag_value
  by_cases h80 : k = "80"
  · simp [h80]
  · simp [h80, assocGet_insert_other store k key v hne]

/-- C6: `add_tag` with the key `"80"` leaves the tag store unchanged, so a
store built by any sequence of `add_tag` operations never answers for tag
`80`; `add_tag` with any other key stores the value, silently overwriting
any existing value for that key. -/
theorem add_tag_spec :
    (∀ (store : TagStore) (v : List Nat), add_tag store "80" v = store)
    ∧ (∀ (store : TagStore) (k : String) (v : List Nat), k ≠ "80" →
        get_tag_value (add_tag store k v) k = some v)
    ∧ (∀ ops : List (String × List Nat),
        get_tag_value (ops.foldl (fun s p => add_tag s p.1 p.2) ([] : TagStore)) "80"
          = none) := by
  refine ⟨fun store v => by simp [add_tag], fun store k v hk => ?_, fun ops => ?_⟩
  · unfold add_tag get_tag_value
    simp [hk, assocGet_insert_self]
  · have key : ∀ (ops : List (String × List Nat)) (s : TagStore),
        get_tag_value s "80" = none →
        get_tag_value (ops.foldl (fun s p => add_tag s p.1 p.2) s) "80" = none := by
      intro ops
      induction ops with
      | nil => intro s hs; simpa using hs
      | cons p rest ih =>
          intro s hs
          simp only [List.foldl_cons]
          apply ih
          by_cases hp : p.1 = "80"
          · simp [add_tag, hp, hs]
          · rw [add_tag_get_other s p.1 "80" p.2 hp]
            exact hs
    exact key ops [] rfl

/-- C6 witness: instantiates `add_tag_spec` at the key `"9F37"`,
discharging the `k ≠ "80"` hypothesis at a concrete input. -/
theorem add_tag_spec_witness :
    get_tag_value (add_tag storeC5 "9F37" [1, 2]) "9F37" = some [1, 2] :=
  add_tag_spec.2.1 storeC5 "9F37" [1, 2] (by decide)

/-- C8: the TVR encoding of any record is exactly 5 bytes; the all-false
record encodes to five zero bytes; and setting any single named flag sets
exactly its one defined bit (bit 7 = MSB), leaving all RFU bits zero. -/
theorem tvr_encoding_bits :
    (∀ tvr : TerminalVerificationResults, (tvr_to_bytes tvr).length = 5)
    ∧ tvr_to_bytes tvrAllFalse = [0, 0, 0, 0, 0]
    ∧ tvr_to_bytes { tvrAllFalse with offline_data_authentication_was_not_performed := true } = [0x80, 0, 0, 0, 0]
    ∧ tvr_to_bytes { tvrAllFalse with sda_failed := true } = [0x40, 0, 0, 0, 0]
    ∧ tvr_to_bytes { tvrAllFalse with icc_data_missing := true } = [0x20, 0, 0, 0, 0]
    ∧ tvr_to_bytes { tvrAllFalse with card_appears_on_terminal_exception_file := true } = [0x10, 0, 0, 0, 0]
    ∧ tvr_to_bytes { tvrAllFalse with dda_failed := true } = [0x08, 0, 0, 0, 0]
    ∧ tvr_to_bytes { tvrAllFalse with cda_failed := true } = [0x04, 0, 0, 0, 0]
    ∧ tvr_to_bytes { tvrAllFalse with icc_and_terminal_have_different_application_versions := true } = [0, 0x80, 0, 0, 0]
    ∧ tvr_to_bytes { tvrAllFalse with expired_application := true } = [0, 0x40, 0, 0, 0]
    ∧ tvr_to_bytes { tvrAllFalse with application_not_yet_effective := true } = [0, 0x20, 0, 0, 0]
    ∧ tvr_to_bytes { tvrAllFalse with requested_service_not_allowed_for_card_product := true } = [0, 0x10, 0, 0, 0]
    ∧ tvr_to_bytes { tvrAllFalse with new_card := true } = [0, 0x08, 0, 0, 0]
    ∧ tvr_to_bytes { tvrAllFalse with cardholder_verification_was_not_successful := true } = [0, 0, 0x80, 0, 0]
    ∧ tvr_to_bytes { tvrAllFalse with unrecognised_cvm := true } = [0, 0, 0x40, 0, 0]
    ∧ tvr_to_bytes { tvrAllFalse with pin_try_limit_exceeded := true } = [0, 0, 0x20, 0, 0]
    ∧ tvr_to_bytes { tvrAllFalse with pin_entry_required_and_pin_pad_not_present_or_not_working := true } = [0, 0, 0x10, 0, 0]
    ∧ tvr_to_bytes { tvrAllFalse with pin_entry_required_pin_pad_present_but_pin_was_not_entered := true } = [0, 0, 0x08, 0, 0]
    ∧ tvr_to_bytes { tvrAllFalse with online_pin_entered := true } = [0, 0, 0x04, 0, 0]
    ∧ tvr_to_bytes { tvrAllFalse with transaction_exceeds_floor_limit := true } = [0, 0, 0, 0x80, 0]
    ∧ tvr_to_bytes { tvrAllFalse with lower_consecutive_offline_limit_exceeded := true } = [0, 0, 0, 0x40, 0]
    ∧ tvr_to_bytes { tvrAllFalse with upper_consecutive_offline_limit_exceeded := true } = [0, 0, 0, 0x20, 0]
    ∧ tvr_to_bytes { tvrAllFalse with transaction_selected_randomly_for_online_processing := true } = [0, 0, 0, 0x10, 0]
    ∧ tvr_to_bytes { tvrAllFalse with merchant_forced_transaction_online := true } = [0, 0, 0, 0x08, 0]
    ∧ tvr_to_bytes { tvrAllFalse with default_tdol_used := true } = [0, 0, 0, 0, 0x80]
    ∧ tvr_to_bytes { tvrAllFalse with issuer_authentication_failed := true } = [0, 0, 0, 0, 0x40]
    ∧ tvr_to_bytes { tvrAllFalse with script_processing_failed_before_final_generate_ac := true } = [0, 0, 0, 0, 0x20]
    ∧ tvr_to_bytes { tvrAllFalse with script_processing_failed_after_final_generate_ac := true } = [0, 0, 0, 0, 0x10] :=
  ⟨fun _ => rfl, by decide⟩

/-- C9: `get_tag_list_tag_values` on the empty tag list is a panic (the
slice `tag_list[0..1]` of an empty list), for every tag store: it neither
returns a value nor an error, so the function is total only on non-empty
tag lists. -/
theorem get_tag_list_tag_values_empty_crash :
    ∀ store : TagStore, get_tag_list_tag_values store [] = .crash :=
  fun _ => rfl

theorem public_decrypt_eq (rawOp : List Nat → Option (List Nat))
    (key : RsaPublicKey) (cipher_data : List Nat) (hmod : key.modulus ≠ []) :
    public_decrypt rawOp key cipher_data =
      (match rawOp cipher_data with
       | none => .err
       | some data =>
           if data.length = key.modulus.length ∧ data.head? = some 0x6A
              ∧ data.getLastD 0 = 0xBC
           then .ok data else .err) := by
  have hlenpos : 0 < key.modulus.length := List.length_pos.mpr hmod
  unfold public_decrypt
  cases rawOp cipher_data with
  | none => rfl
  | some data =>
      by_cases hl : data.length = key.modulus.length
      · cases data with
        | nil => simp at hl; omega
        | cons d0 tl =>
            have hl2 : tl.length + 1 = key.modulus.length := by simpa using hl
            by_cases h6a : d0 = 0x6A
            · by_cases hbc : (d0 :: tl).getLastD 0 = 0xBC
              · simp [hl2, h6a, hbc]
              · simp [hl2, h6a, hbc]
            · simp [hl2, h6a]
      · have hl2 : ¬ data.length = key.modulus.length := hl
        simp [hl2]

/-- C3: `public_decrypt` returns a recovered plaintext exactly when the
raw RSA result has the modulus byte length, first byte `6A` and last byte
`BC`; in every other case — including a failure of the raw OpenSSL
operation (`rawOp _ = none`) — it returns an error (for a non-degenerate
key, i.e. a non-empty modulus). -/
theorem public_decrypt_envelope_spec (rawOp : List Nat → Option (List Nat))
    (key : RsaPublicKey) (cipher_data : List Nat) (hmod : key.modulus ≠ []) :
    (∀ d, public_decrypt rawOp key cipher_data = .ok d ↔
       (rawOp cipher_data = some d ∧ d.length = key.modulus.length
        ∧ d.head? = some 0x6A ∧ d.getLastD 0 = 0xBC))
    ∧ ((∀ d, public_decrypt rawOp key cipher_data ≠ .ok d) →
        public_decrypt rawOp key cipher_data = .err) := by
  have heq := public_decrypt_eq rawOp key cipher_data hmod
  constructor
  · intro d
    rw [heq]
    cases hr : rawOp cipher_data with
    | none => simp
    | some data =>
        dsimp only
        by_cases hc : data.length = key.modulus.length ∧ data.head? = some 0x6A
            ∧ data.getLastD 0 = 0xBC
        · rw [if_pos hc]
          simp only [RunResult.ok.injEq, Option.some.injEq]
          constructor
          · intro h
            subst h
            exact ⟨rfl, hc⟩
          · intro h
            exact h.1
        · rw [if_neg hc]
          simp only [Option.some.injEq]
          constructor
          · intro h
            exact absurd h (by simp)
          · rintro ⟨rfl, hconds⟩
            exact absurd hconds hc
  · intro hno
    rw [heq]
    rw [heq] at hno
    cases hr : rawOp cipher_data with
    | none => rfl
    | some data =>
        dsimp only
        by_cases hc : data.length = key.modulus.length ∧ data.head? = some 0x6A
            ∧ data.getLastD 0 = 0xBC
        · exact absurd (by rw [hr]; dsimp only; rw [if_pos hc]) (hno data)
        · rw [if_neg hc]

/-- C3 witness: instantiates `public_decrypt_envelope_spec` at a concrete
key with non-empty modulus and a raw result `6A BC`. -/
theorem public_decrypt_envelope_witness :
    (∀ d, public_decrypt rawOpC3 keyC3 [9] = .ok d ↔
       (rawOpC3 [9] = some d ∧ d.length = keyC3.modulus.length
        ∧ d.head? = some 0x6A ∧ d.getLastD 0 = 0xBC))
    ∧ ((∀ d, public_decrypt rawOpC3 keyC3 [9] ≠ .ok d) →
        public_decrypt rawOpC3 keyC3 [9] = .err) :=
  public_decrypt_envelope_spec rawOpC3 keyC3 [9] (by decide)

/-- C10: `public_encrypt` returns a ciphertext exactly when the raw RSA
operation succeeds and its result has the modulus byte length; unlike
`public_decrypt` no byte value of either plaintext or ciphertext is
inspected, and in every other case it returns an error. -/
theorem public_encrypt_spec (rawOp : List Nat → Option (List Nat))
    (key : RsaPublicKey) (plaintext_data : List Nat) :
    (∀ d, public_encrypt rawOp key plaintext_data = .ok d ↔
       (rawOp plaintext_data = some d ∧ d.length = key.modulus.length))
    ∧ ((∀ d, public_encrypt rawOp key plaintext_data ≠ .ok d) →
        public_encrypt rawOp key plaintext_data = .err) := by
  unfold public_encrypt
  constructor
  · intro d
    cases hr : rawOp plaintext_data with
    | none => simp
    | some data =>
        dsimp only
        by_cases hl : data.length = key.modulus.length
        · rw [if_neg (by omega)]
          simp only [RunResult.ok.injEq, Option.some.injEq]
          constructor
          · intro h
            subst h
            exact ⟨rfl, hl⟩
          · intro h
            exact h.1
        · rw [if_pos (by omega)]
          simp only [Option.some.injEq]
          constructor
          · intro h
            exact absurd h (by simp)
          · rintro ⟨rfl, hlen⟩
            exact absurd hlen hl
  · intro hno
    cases hr : rawOp plaintext_data with
    | none => rfl
    | some data =>
        dsimp only
        by_cases hl : data.length = key.modulus.length
        · exact absurd (by rw [hr]; dsimp only; rw [if_neg (by omega)]) (hno data)
        · rw [if_pos (by omega)]
/-- C10 witness: instantiates `public_encrypt_spec` at a concrete key
and raw result of matching length. -/
theorem public_encrypt_spec_witness :
    (∀ d, public_encrypt rawOpC10 keyC3 [7] = .ok d ↔
       (rawOpC10 [7] = some d ∧ d.length = keyC3.modulus.length))
    ∧ ((∀ d, public_encrypt rawOpC10 keyC3 [7] ≠ .ok d) →
        public_encrypt rawOpC10 keyC3 [7] = .err) :=
  public_encrypt_spec rawOpC10 keyC3 [7]

/-- C7: a certificate more than 30 days past its MMYY expiry makes
`is_certificate_expired` return `true`, but `get_issuer_public_key`
ignores that result entirely — its outcome is identical for any two
expiry durations, so an expired certificate never causes certificate
verification to fail when every other check passes. -/
theorem expired_certificate_nonfatal (d : Int) (h : 30 < d) :
    is_certificate_expired d = true
    ∧ ∀ (sha1 : List Nat → List Nat) (rawOp : List Nat → Option (List Nat))
        (ca_data : List (String × CertificateAuthority)) (store : TagStore)
        (aid : List Nat) (d1 d2 : Int),
        get_issuer_public_key sha1 rawOp d1 ca_data store aid
          = get_issuer_public_key sha1 rawOp d2 ca_data store aid := by
  constructor
  · simpa [is_certificate_expired] using h
  · intro sha1 rawOp ca_data store aid d1 d2
    rfl

/-- C7 witness: instantiates `expired_certificate_nonfatal` at duration
31 days, a concrete successful certificate-verification context, and the
two durations 31 and 0. -/
theorem expired_certificate_nonfatal_witness :
    is_certificate_expired 31 = true
    ∧ get_issuer_public_key sha1C4 rawC4 31 caDataC4 storeC4 aidC4
        = get_issuer_public_key sha1C4 rawC4 0 caDataC4 storeC4 aidC4 :=
  ⟨(expired_certificate_nonfatal 31 (by decide)).1,
   (expired_certificate_nonfatal 31 (by decide)).2 sha1C4 rawC4 caDataC4 storeC4 aidC4 31 0⟩

/-- C2 (amended): one step of the `send_apdu` loop.  When the reply to
the current command carries SW1 `61`, the GET RESPONSE command
`00 C0 00 00 Le` (Le = SW2, or `FF` for SW2 = 0) is sent next and the
reply's data bytes are appended to the accumulated response; when SW1 is
`6C` — provided SW2 ≠ 0 (the code asserts SW2 > 0) and the original
command is non-empty — the original command is resent with its last byte
replaced by SW2, again accumulating the data; for any other SW1 the loop
stops, returning the transmit trace, the 2-byte trailer and the
accumulated data. -/
theorem send_apdu_loop_step_spec (iface : List Nat → Option (List Nat))
    (orig : List Nat) (fuel : Nat) (cmd acc : List Nat) (trace : List (List Nat))
    (reply data : List Nat) (sw1 sw2 : Nat)
    (hreply : iface cmd = some reply) (hlen : 2 ≤ reply.length)
    (hdata : data = reply.take (reply.length - 2))
    (hsw1 : sw1 = reply.getD (reply.length - 2) 0)
    (hsw2 : sw2 = reply.getD (reply.length - 1) 0) :
    (sw1 = 0x61 →
      send_apdu_loop iface orig (fuel + 1) cmd acc trace
        = send_apdu_loop iface orig fuel
            [0x00, 0xC0, 0x00, 0x00, if sw2 = 0 then 0xFF else sw2]
            (acc ++ data) (trace ++ [cmd]))
    ∧ (sw1 = 0x6C → sw2 ≠ 0 → orig ≠ [] →
      send_apdu_loop iface orig (fuel + 1) cmd acc trace
        = send_apdu_loop iface orig fuel (orig.dropLast ++ [sw2])
            (acc ++ data) (trace ++ [cmd]))
    ∧ (sw1 ≠ 0x61 → sw1 ≠ 0x6C →
      send_apdu_loop iface orig (fuel + 1) cmd acc trace
        = .ok (trace ++ [cmd], [sw1, sw2], acc ++ data)) := by
  subst hdata hsw1 hsw2
  refine ⟨fun h61 => ?_, fun h6c hsw2ne horig => ?_, fun hn61 hn6c => ?_⟩
  · rw [send_apdu_loop, hreply]
    dsimp only
    rw [if_neg (by omega), if_pos h61]
  · rw [send_apdu_loop, hreply]
    dsimp only
    rw [if_neg (by omega), if_neg (by omega), if_pos h6c, if_neg hsw2ne,
      if_neg (by simpa [List.isEmpty_iff] using horig)]
  · rw [send_apdu_loop, hreply]
    dsimp only
    rw [if_neg (by omega), if_neg hn61, if_neg hn6c]

/-- C2 witness: instantiates `send_apdu_loop_step_spec` on the `iface61`
transport, whose reply `AB 61 05` exercises the SW1 = `61` branch. -/
theorem send_apdu_loop_step_witness :
    ((0x61 : Nat) = 0x61 →
      send_apdu_loop iface61 [0x10, 0x20] 2 [0x10, 0x20] [] []
        = send_apdu_loop iface61 [0x10, 0x20] 1
            [0x00, 0xC0, 0x00, 0x00, if (0x05 : Nat) = 0 then 0xFF else 0x05]
            ([] ++ [0xAB]) ([] ++ [[0x10, 0x20]]))
    ∧ ((0x61 : Nat) = 0x6C → (0x05 : Nat) ≠ 0 → ([0x10, 0x20] : List Nat) ≠ [] →
      send_apdu_loop iface61 [0x10, 0x20] 2 [0x10, 0x20] [] []
        = send_apdu_loop iface61 [0x10, 0x20] 1
            (([0x10, 0x20] : List Nat).dropLast ++ [0x05])
            ([] ++ [0xAB]) ([] ++ [[0x10, 0x20]]))
    ∧ ((0x61 : Nat) ≠ 0x61 → (0x61 : Nat) ≠ 0x6C →
      send_apdu_loop iface61 [0x10, 0x20] 2 [0x10, 0x20] [] []
        = .ok ([] ++ [[0x10, 0x20]], [0x61, 0x05], [] ++ [0xAB])) :=
  send_apdu_loop_step_spec iface61 [0x10, 0x20] 1 [0x10, 0x20] [] [] [0xAB, 0x61, 0x05]
    [0xAB] 0x61 0x05 (by decide) (by decide) (by decide) (by decide) (by decide)

/-- C2 counterexample: on a `6C 00` reply the claimed resend does not
happen — the source's `assert!(available_data_length > 0)` panics, so the
loop result is a crash and differs from the result the claimed resend
(last byte replaced by SW2 = 0, which `iface6c` answers with `90 00`)
would produce. -/
theorem send_apdu_loop_6c00_counterexample :
    send_apdu_loop iface6c [0x00, 0x01, 0x02, 0x03] 2 [0x00, 0x01, 0x02, 0x03] [] []
      = .crash
    ∧ send_apdu_loop iface6c [0x00, 0x01, 0x02, 0x03] 1
        (([0x00, 0x01, 0x02, 0x03] : List Nat).dropLast ++ [0x00]) []
        [[0x00, 0x01, 0x02, 0x03]]
      = .ok ([[0x00, 0x01, 0x02, 0x03], [0x00, 0x01, 0x02, 0x00]], [0x90, 0x00], [])
    ∧ send_apdu_loop iface6c [0x00, 0x01, 0x02, 0x03] 2 [0x00, 0x01, 0x02, 0x03] [] []
      ≠ send_apdu_loop iface6c [0x00, 0x01, 0x02, 0x03] 1
          (([0x00, 0x01, 0x02, 0x03] : List Nat).dropLast ++ [0x00]) []
          [[0x00, 0x01, 0x02, 0x03]] := by
  decide

theorem public_decrypt_ok_inv (rawOp : List Nat → Option (List Nat))
    (key : RsaPublicKey) (cipher data : List Nat)
    (h : public_decrypt rawOp key cipher = .ok data) :
    rawOp cipher = some data ∧ data.length = key.modulus.length := by
  unfold public_decrypt at h
  cases hr : rawOp cipher <;> rw [hr] at h
  · exact absurd h (by simp)
  rename_i data0
  dsimp only at h
  by_cases hl : data0.length = key.modulus.length
  · rw [if_neg (by omega)] at h
    cases data0 with
    | nil => exact absurd h (by simp)
    | cons d0 tl =>
        dsimp only at h
        by_cases h6a : d0 ≠ 0x6A
        · rw [if_pos h6a] at h
          exact absurd h (by simp)
        rw [if_neg h6a] at h
        by_cases hbc : (d0 :: tl).getLastD 0 ≠ 0xBC
        · rw [if_pos hbc] at h
          exact absurd h (by simp)
        rw [if_neg hbc] at h
        simp only [RunResult.ok.injEq] at h
        subst h
        exact ⟨rfl, hl⟩
  · rw [if_pos (by omega)] at h
    exact absurd h (by simp)

/-- C4: for every successful call of `get_issuer_public_key`, the store
held tags `90`, `92`, `9F32`, `8F`, the CA key resolved, the recovered
certificate (the raw RSA result) has the CA modulus byte length (at
least 36), the returned modulus is the LeftmostDigits field
(bytes 15 up to `15 + |CA.N| - 36`) concatenated with tag `92`, the
returned exponent is tag `9F32`, and the SHA-1 of certificate bytes
`[1 .. checksumPosition]` concatenated with tags `92` and `9F32` equals
the 20-byte hash stored at the checksum position. -/
theorem get_issuer_public_key_success_spec
    (sha1 : List Nat → List Nat) (rawOp : List Nat → Option (List Nat))
    (d : Int) (ca_data : List (String × CertificateAuthority))
    (store : TagStore) (aid : List Nat) (m e : List Nat)
    (h : get_issuer_public_key sha1 rawOp d ca_data store aid = .ok (m, e)) :
    ∃ t90 t92 t9f32 t8f ca_pk cert,
      get_tag_value store "90" = some t90
      ∧ get_tag_value store "92" = some t92
      ∧ get_tag_value store "9F32" = some t9f32
      ∧ get_tag_value store "8F" = some t8f
      ∧ get_ca_public_key ca_data (aid.take 5) t8f = some ca_pk
      ∧ rawOp t90 = some cert
      ∧ cert.length = ca_pk.modulus.length
      ∧ 36 ≤ cert.length
      ∧ m = (cert.drop 15 |>.take (cert.length - 36)) ++ t92
      ∧ e = t9f32
      ∧ sha1 ((cert.drop 1 |>.take (15 + cert.length - 36 - 1)) ++ t92 ++ t9f32)
          = (cert.drop (15 + cert.length - 36) |>.take 20) := by
  unfold get_issuer_public_key at h
  cases h92 : get_tag_value store "92" <;> rw [h92] at h
  · exact absurd h (by simp)
  rename_i t92
  try dsimp only at h
  cases h9f32 : get_tag_value store "9F32" <;> rw [h9f32] at h
  · exact absurd h (by simp)
  rename_i t9f32
  try dsimp only at h
  cases h90 : get_tag_value store "90" <;> rw [h90] at h
  · exact absurd h (by simp)
  rename_i t90
  try dsimp only at h
  by_cases haid : aid.length < 5
  · rw [if_pos haid] at h
    exact absurd h (by simp)
  rw [if_neg haid] at h
  cases h8f : get_tag_value store "8F" <;> rw [h8f] at h
  · exact absurd h (by simp)
  rename_i t8f
  try dsimp only at h
  cases hca : get_ca_public_key ca_data (aid.take 5) t8f <;> rw [hca] at h
  · exact absurd h (by simp)
  rename_i ca_pk
  try dsimp only at h
  cases hpd : public_decrypt rawOp ca_pk t90 <;> rw [hpd] at h
  · exact absurd h (by simp)
  · exact absurd h (by simp)
  rename_i cert
  try dsimp only at h
  have hinv : rawOp t90 = some cert ∧ cert.length = ca_pk.modulus.length :=
    public_decrypt_ok_inv rawOp ca_pk t90 cert hpd
  by_cases hl2 : cert.length < 2
  · rw [if_pos hl2] at h
    exact absurd h (by simp)
  rw [if_neg hl2] at h
  by_cases htype : cert.getD 1 0 ≠ 0x02
  · rw [if_pos htype] at h
    exact absurd h (by simp)
  rw [if_neg htype] at h
  by_cases hl36 : cert.length < 36
  · rw [if_pos hl36] at h
    exact absurd h (by simp)
  rw [if_neg hl36] at h
  try dsimp only at h
  by_cases halg1 : cert.getD 11 0 ≠ 0x01
  · rw [if_pos halg1] at h
    exact absurd h (by simp)
  rw [if_neg halg1] at h
  by_cases halg2 : cert.getD 12 0 ≠ 0x01
  · rw [if_pos halg2] at h
    exact absurd h (by simp)
  rw [if_neg halg2] at h
  by_cases hsha : sha1 ((cert.drop 1 |>.take (15 + cert.length - 36 - 1))
      ++ t92 ++ t9f32) ≠ (cert.drop (15 + cert.length - 36) |>.take 20)
  · rw [if_pos hsha] at h
    exact absurd h (by simp)
  rw [if_neg hsha] at h
  cases h5a : get_tag_value store "5A" <;> rw [h5a] at h
  · exact absurd h (by simp)
  rename_i t5a
  try dsimp only at h
  cases hpan : bcd_to_ascii t5a <;> rw [hpan] at h
  · exact absurd h (by simp)
  rename_i ascii_pan
  try dsimp only at h
  cases hiin : bcd_to_ascii (cert.drop 2 |>.take 4) <;> rw [hiin] at h
  · exact absurd h (by simp)
  rename_i ascii_iin
  try dsimp only at h
  by_cases hplen : ascii_pan.length < ascii_iin.length
  · rw [if_pos hplen] at h
    exact absurd h (by simp)
  rw [if_neg hplen] at h
  by_cases hpre : ascii_iin ≠ ascii_pan.take ascii_iin.length
  · rw [if_pos hpre] at h
    exact absurd h (by simp)
  rw [if_neg hpre] at h
  simp only [RunResult.ok.injEq, Prod.mk.injEq] at h
  refine ⟨t90, t92, t9f32, t8f, ca_pk, cert, rfl, rfl, rfl, rfl, hca,
    hinv.1, hinv.2, by omega, ?_, h.2.symm, by simpa using hsha⟩
  rw [← h.1]
  have harith : 15 + cert.length - 36 - 15 = cert.length - 36 := by omega
  rw [harith]

/-- C4 witness: instantiates `get_issuer_public_key_success_spec` on a
concrete successful run (36-byte CA modulus, certificate `certC4`),
discharging the success hypothesis by evaluation. -/
theorem get_issuer_public_key_success_witness :
    ∃ t90 t92 t9f32 t8f ca_pk cert,
      get_tag_value storeC4 "90" = some t90
      ∧ get_tag_value storeC4 "92" = some t92
      ∧ get_tag_value storeC4 "9F32" = some t9f32
      ∧ get_tag_value storeC4 "8F" = some t8f
      ∧ get_ca_public_key caDataC4 (aidC4.take 5) t8f = some ca_pk
      ∧ rawC4 t90 = some cert
      ∧ cert.length = ca_pk.modulus.length
      ∧ 36 ≤ cert.length
      ∧ [0xAA] = (cert.drop 15 |>.take (cert.length - 36)) ++ t92
      ∧ [0x03] = t9f32
      ∧ sha1C4 ((cert.drop 1 |>.take (15 + cert.length - 36 - 1)) ++ t92 ++ t9f32)
          = (cert.drop (15 + cert.length - 36) |>.take 20) :=
  get_issuer_public_key_success_spec sha1C4 rawC4 0 caDataC4 storeC4 aidC4
    [0xAA] [0x03] (by decide)

theorem flattenTagList_cons (e : List Nat × Nat) (rest : List (List Nat × Nat)) :
    flattenTagList (e :: rest) = e.1 ++ e.2 :: flattenTagList rest := by
  simp [flattenTagList]

theorem flattenTagList_ne_nil (e : List Nat × Nat) (rest : List (List Nat × Nat)) :
    flattenTagList (e :: rest) ≠ [] := by
  simp [flattenTagList]

theorem entryValuesConcat_cons (store : TagStore) (e : List Nat × Nat)
    (rest : List (List Nat × Nat)) :
    entryValuesConcat store (e :: rest)
      = (get_tag_value store (hexEncodeUpper e.1)).getD []
          ++ entryValuesConcat store rest := by
  simp [entryValuesConcat]

theorem tag_list_loop_ok (store : TagStore) :
    ∀ (entries : List (List Nat × Nat)) (acc : List Nat), entries ≠ [] →
      (∀ e ∈ entries, validTagEntry e) →
      (∀ e ∈ entries, ∃ v, get_tag_value store (hexEncodeUpper e.1) = some v
          ∧ v.length = e.2) →
      tag_list_loop store acc (flattenTagList entries)
        = .ok (acc ++ entryValuesConcat store entries) := by
  intro entries
  induction entries with
  | nil => intro acc hne _ _; exact absurd rfl hne
  | cons e rest ih =>
      intro acc _ hvalid hpresent
      obtain ⟨v, hv, hvlen⟩ := hpresent e (List.mem_cons_self e rest)
      have hval := hvalid e (List.mem_cons_self e rest)
      obtain ⟨tagbytes, len⟩ := e
      rw [flattenTagList_cons, entryValuesConcat_cons]
      cases tagbytes with
      | nil => exact False.elim hval
      | cons b t1 =>
      cases t1 with
      | cons b2 t2 =>
        cases t2 with
        | cons b3 t3 => exact False.elim hval
        | nil =>
          have hval2 : b &&& 0x1F = 0x1F := hval
          have hcond : ¬ (b &&& 0x1F ≠ 0x1F ∨ is_non_conforming_one_byte_tag b = true) := by
            rintro (h1 | h2)
            · exact h1 hval2
            · have hb : b = 0x95 := by
                simpa [is_non_conforming_one_byte_tag] using h2
              rw [hb] at hval2
              exact absurd hval2 (by decide)
          rw [show ([b, b2], len).1 ++ len :: flattenTagList rest
              = b :: b2 :: len :: flattenTagList rest from rfl]
          rw [tag_list_loop, if_neg hcond]
          rw [show (([b, b2], len).1 : List Nat) = [b, b2] from rfl] at hv
          rw [hv]
          dsimp only
          rw [if_neg (by omega)]
          by_cases hrest : rest = []
          · subst hrest
            simp [flattenTagList, entryValuesConcat, hv]
          · have hfne : flattenTagList rest ≠ [] := by
              cases rest with
              | nil => exact absurd rfl hrest
              | cons e2 r2 => exact flattenTagList_ne_nil e2 r2
            rw [if_neg (by simpa [List.isEmpty_iff] using hfne)]
            rw [ih (acc ++ v) hrest
              (fun x hx => hvalid x (List.mem_cons_of_mem _ hx))
              (fun x hx => hpresent x (List.mem_cons_of_mem _ hx))]
            simp [hv]
      | nil =>
          have hval2 : b &&& 0x1F ≠ 0x1F ∨ b = 0x95 := hval
          have hcond : b &&& 0x1F ≠ 0x1F ∨ is_non_conforming_one_byte_tag b = true := by
            rcases hval2 with h1 | h2
            · exact Or.inl h1
            · exact Or.inr (by simp [is_non_conforming_one_byte_tag, h2])
          rw [show ([b], len).1 ++ len :: flattenTagList rest
              = b :: len :: flattenTagList rest from rfl]
          rw [show (([b], len).1 : List Nat) = [b] from rfl] at hv
          by_cases hrest : rest = []
          · subst hrest
            rw [show (flattenTagList [] : List Nat) = [] from rfl]
            rw [tag_list_loop, if_pos hcond, hv]
            dsimp only
            rw [if_neg (by omega)]
            simp [entryValuesConcat, hv]
          · have hfne : flattenTagList rest ≠ [] := by
              cases rest with
              | nil => exact absurd rfl hrest
              | cons e2 r2 => exact flattenTagList_ne_nil e2 r2
            obtain ⟨z, zr, hz⟩ := List.exists_cons_of_ne_nil hfne
            rw [hz]
            rw [tag_list_loop, if_pos hcond, hv]
            dsimp only
            rw [if_neg (by omega)]
            rw [← hz]
            rw [ih (acc ++ v) hrest
              (fun x hx => hvalid x (List.mem_cons_of_mem _ hx))
              (fun x hx => hpresent x (List.mem_cons_of_mem _ hx))]
            simp [hv]

theorem tag_list_loop_err (store : TagStore) :
    ∀ (entries : List (List Nat × Nat)) (acc : List Nat), entries ≠ [] →
      (∀ e ∈ entries, validTagEntry e) →
      (¬ ∀ e ∈ entries, ∃ v, get_tag_value store (hexEncodeUpper e.1) = some v
          ∧ v.length = e.2) →
      tag_list_loop store acc (flattenTagList entries) = .err := by
  intro entries
  induction entries with
  | nil => intro acc hne _ _; exact absurd rfl hne
  | cons e rest ih =>
      intro acc _ hvalid hbad
      have hval := hvalid e (List.mem_cons_self e rest)
      obtain ⟨tagbytes, len⟩ := e
      rw [flattenTagList_cons]
      by_cases hgood : ∃ v, get_tag_value store (hexEncodeUpper (tagbytes, len).1)
          = some v ∧ v.length = len
      · obtain ⟨v, hv, hvlen⟩ := hgood
        have hrestne : rest ≠ [] := by
          rintro rfl
          refine hbad ?_
          intro x hx
          rcases List.mem_cons.mp hx with h | h
          · subst h; exact ⟨v, hv, hvlen⟩
          · exact absurd h (List.not_mem_nil x)
        have hrestbad : ¬ ∀ x ∈ rest, ∃ v2,
            get_tag_value store (hexEncodeUpper x.1) = some v2 ∧ v2.length = x.2 := by
          intro hall
          refine hbad ?_
          intro x hx
          rcases List.mem_cons.mp hx with h | h
          · subst h; exact ⟨v, hv, hvlen⟩
          · exact hall x h
        have hfne : flattenTagList rest ≠ [] := by
          cases rest with
          | nil => exact absurd rfl hrestne
          | cons e2 r2 => exact flattenTagList_ne_nil e2 r2
        have hvrest := fun x hx => hvalid x (List.mem_cons_of_mem _ hx)
        cases tagbytes with
        | nil => exact False.elim hval
        | cons b t1 =>
        cases t1 with
        | cons b2 t2 =>
          cases t2 with
          | cons b3 t3 => exact False.elim hval
          | nil =>
            have hval2 : b &&& 0x1F = 0x1F := hval
            have hcond : ¬ (b &&& 0x1F ≠ 0x1F ∨ is_non_conforming_one_byte_tag b = true) := by
              rintro (h1 | h2)
              · exact h1 hval2
              · have hb : b = 0x95 := by
                  simpa [is_non_conforming_one_byte_tag] using h2
                rw [hb] at hval2
                exact absurd hval2 (by decide)
            rw [show ([b, b2], len).1 ++ len :: flattenTagList rest
                = b :: b2 :: len :: flattenTagList rest from rfl]
            rw [tag_list_loop, if_neg hcond]
            rw [show (([b, b2], len).1 : List Nat) = [b, b2] from rfl] at hv
            rw [hv]
            dsimp only
            rw [if_neg (by omega)]
            rw [if_neg (by simpa [List.isEmpty_iff] using hfne)]
            exact ih (acc ++ v) hrestne hvrest hrestbad
        | nil =>
            have hval2 : b &&& 0x1F ≠ 0x1F ∨ b = 0x95 := hval
            have hcond : b &&& 0x1F ≠ 0x1F ∨ is_non_conforming_one_byte_tag b = true := by
              rcases hval2 with h1 | h2
              · exact Or.inl h1
              · exact Or.inr (by simp [is_non_conforming_one_byte_tag, h2])
            rw [show ([b], len).1 ++ len :: flattenTagList rest
                = b :: len :: flattenTagList rest from rfl]
            rw [show (([b], len).1 : List Nat) = [b] from rfl] at hv
            obtain ⟨z, zr, hz⟩ := List.exists_cons_of_ne_nil hfne
            rw [hz]
            rw [tag_list_loop, if_pos hcond, hv]
            dsimp only
            rw [if_neg (by omega)]
            rw [← hz]
            exact ih (acc ++ v) hrestne hvrest hrestbad
      · have hvstep : ∀ v, get_tag_value store (hexEncodeUpper (tagbytes, len).1)
            = some v → v.length ≠ len := by
          intro v hv hl
          exact hgood ⟨v, hv, hl⟩
        cases tagbytes with
        | nil => exact False.elim hval
        | cons b t1 =>
        cases t1 with
        | cons b2 t2 =>
          cases t2 with
          | cons b3 t3 => exact False.elim hval
          | nil =>
            have hval2 : b &&& 0x1F = 0x1F := hval
            have hcond : ¬ (b &&& 0x1F ≠ 0x1F ∨ is_non_conforming_one_byte_tag b = true) := by
              rintro (h1 | h2)
              · exact h1 hval2
              · have hb : b = 0x95 := by
                  simpa [is_non_conforming_one_byte_tag] using h2
                rw [hb] at hval2
                exact absurd hval2 (by decide)
            rw [show ([b, b2], len).1 ++ len :: flattenTagList rest
                = b :: b2 :: len :: flattenTagList rest from rfl]
            rw [tag_list_loop, if_neg hcond]
            cases hv : get_tag_value store (hexEncodeUpper [b, b2]) with
            | none => rfl
            | some v =>
                dsimp only
                have := hvstep v (by
                  rw [show (([b, b2], len).1 : List Nat) = [b, b2] from rfl]
                  exact hv)
                rw [if_pos this]
        | nil =>
            have hval2 : b &&& 0x1F ≠ 0x1F ∨ b = 0x95 := hval
            have hcond : b &&& 0x1F ≠ 0x1F ∨ is_non_conforming_one_byte_tag b = true := by
              rcases hval2 with h1 | h2
              · exact Or.inl h1
              · exact Or.inr (by simp [is_non_conforming_one_byte_tag, h2])
            rw [show ([b], len).1 ++ len :: flattenTagList rest
                = b :: len :: flattenTagList rest from rfl]
            cases hfr : flattenTagList rest with
            | nil =>
                rw [tag_list_loop, if_pos hcond]
                cases hv : get_tag_value store (hexEncodeUpper [b]) with
                | none => rfl
                | some v =>
                    dsimp only
                    have := hvstep v (by
                      rw [show (([b], len).1 : List Nat) = [b] from rfl]
                      exact hv)
                    rw [if_pos this]
            | cons z zr =>
                rw [tag_list_loop, if_pos hcond]
                cases hv : get_tag_value store (hexEncodeUpper [b]) with
                | none => rfl
                | some v =>
                    dsimp only
                    have := hvstep v (by
                      rw [show (([b], len).1 : List Nat) = [b] from rfl]
                      exact hv)
                    rw [if_pos this]

theorem entryValuesConcat_length (store : TagStore) :
    ∀ entries : List (List Nat × Nat),
      (∀ e ∈ entries, ∃ v, get_tag_value store (hexEncodeUpper e.1) = some v
          ∧ v.length = e.2) →
      (entryValuesConcat store entries).length
        = (entries.map (fun e => e.2)).sum := by
  intro entries
  induction entries with
  | nil => intro _; simp [entryValuesConcat]
  | cons e rest ih =>
      intro hp
      obtain ⟨v, hv, hvlen⟩ := hp e (List.mem_cons_self e rest)
      rw [entryValuesConcat_cons]
      simp only [List.length_append, List.map_cons, List.sum_cons, hv, Option.getD_some]
      rw [ih (fun x hx => hp x (List.mem_cons_of_mem _ hx)), hvlen]

theorem flattenTagList_two_le (entries : List (List Nat × Nat)) (hne : entries ≠ [])
    (hvalid : ∀ e ∈ entries, validTagEntry e) :
    2 ≤ (flattenTagList entries).length := by
  cases entries with
  | nil => exact absurd rfl hne
  | cons e rest =>
      have hval := hvalid e (List.mem_cons_self e rest)
      rw [flattenTagList_cons]
      have h1 : 1 ≤ e.1.length := by
        obtain ⟨t, l⟩ := e
        cases t with
        | nil => exact False.elim hval
        | cons _ _ => simp
      simp only [List.length_append, List.length_cons]
      omega


/-- C5: over any well-formed tag list (1- or 2-byte tags each followed by
a length byte, hence at least 2 bytes when non-empty): when every listed
tag is stored with a value of the stated length, the expander returns the
concatenation of the stored values in list order, whose length is the sum
of the stated lengths; it fails with an error whenever some listed tag is
absent or some stored value's length differs from its stated length; and
a list of exactly 1 byte is treated as a single tag whose length is
inferred from the stored value. -/
theorem get_tag_list_tag_values_spec (store : TagStore) :
    (∀ entries : List (List Nat × Nat), entries ≠ [] →
       (∀ e ∈ entries, validTagEntry e) →
       (∀ e ∈ entries, ∃ v, get_tag_value store (hexEncodeUpper e.1) = some v
           ∧ v.length = e.2) →
       get_tag_list_tag_values store (flattenTagList entries)
         = .ok (entryValuesConcat store entries)
       ∧ (entryValuesConcat store entries).length
         = (entries.map (fun e => e.2)).sum)
    ∧ (∀ entries : List (List Nat × Nat), entries ≠ [] →
       (∀ e ∈ entries, validTagEntry e) →
       (¬ ∀ e ∈ entries, ∃ v, get_tag_value store (hexEncodeUpper e.1) = some v
           ∧ v.length = e.2) →
       get_tag_list_tag_values store (flattenTagList entries) = .err)
    ∧ (∀ b : Nat,
        get_tag_list_tag_values store [b]
          = match get_tag_value store (hexEncodeUpper [b]) with
            | none => .err
            | some value => .ok value) := by
  refine ⟨fun entries hne hvalid hpresent => ?_, fun entries hne hvalid hbad => ?_,
    fun b => ?_⟩
  · have h2 := flattenTagList_two_le entries hne hvalid
    constructor
    · unfold get_tag_list_tag_values
      rw [if_neg (by omega)]
      rw [tag_list_loop_ok store entries [] hne hvalid hpresent]
      simp
    · exact entryValuesConcat_length store entries hpresent
  · have h2 := flattenTagList_two_le entries hne hvalid
    unfold get_tag_list_tag_values
    rw [if_neg (by omega)]
    exact tag_list_loop_err store entries [] hne hvalid hbad
  · unfold get_tag_list_tag_values
    rw [if_pos (by simp)]

/-- C5 witness: instantiates `get_tag_list_tag_values_spec` on the
concrete store `storeC5` and the CDOL-style list
`9A 03 95 05 9F37 04`, discharging every hypothesis concretely. -/
theorem get_tag_list_tag_values_spec_witness :
    get_tag_list_tag_values storeC5 (flattenTagList entriesC5)
      = .ok (entryValuesConcat storeC5 entriesC5)
    ∧ (entryValuesConcat storeC5 entriesC5).length
      = (entriesC5.map (fun e => e.2)).sum :=
  (get_tag_list_tag_values_spec storeC5).1 entriesC5 (by decide)
    (by
      intro e he
      fin_cases he
      · exact Or.inl (by decide)
      · exact Or.inr (by decide)
      · exact (by decide : (0x9F : Nat) &&& 0x1F = 0x1F))
    (by
      intro e he
      fin_cases he <;> exact ⟨_, rfl, rfl⟩)

theorem assocGet_insert_isSome {α : Type} (s : List (String × α)) (k key : String)
    (v : α) (h : (assocGet s key).isSome = true) :
    (assocGet (assocInsert s k v) key).isSome = true := by
  by_cases hk : k = key
  · subst hk
    simp [assocGet_insert_self]
  · rw [assocGet_insert_other s k key v hk]
    exact h

theorem add_tag_preserves_isSome (store : TagStore) (k key : String) (v : List Nat)
    (h : (get_tag_value store key).isSome = true) :
    (get_tag_value (add_tag store k v) key).isSome = true := by
  unfold add_tag get_tag_value at *
  by_cases h80 : k = "80"
  · simpa [h80] using h
  · rw [if_neg h80]
    exact assocGet_insert_isSome store k key v h

mutual

theorem processTlvTree_mono : ∀ (t : Tlv) (store : TagStore) (key : String),
    (get_tag_value store key).isSome = true →
    (get_tag_value (processTlvTree t store) key).isSome = true
  | .prim tag v, store, key, h =>
      add_tag_preserves_isSome store (hexEncodeUpper tag) key v h
  | .cons _ cs, store, key, h => processTlvList_mono cs store key h

theorem processTlvList_mono : ∀ (ts : List Tlv) (store : TagStore) (key : String),
    (get_tag_value store key).isSome = true →
    (get_tag_value (processTlvList ts store) key).isSome = true
  | [], _, _, h => h
  | t :: ts, store, key, h =>
      processTlvList_mono ts (processTlvTree t store) key
        (processTlvTree_mono t store key h)

end

theorem processBuf_mono : ∀ (fuel : Nat) (store : TagStore) (buf : List Nat)
    (key : String),
    (get_tag_value store key).isSome = true →
    (get_tag_value (processBuf fuel store buf) key).isSome = true
  | 0, _, _, _, h => h
  | fuel + 1, store, buf, key, h => by
      rw [processBuf]
      cases hp : parseTlv (buf.length + 1) buf with
      | none => exact h
      | some tl =>
          obtain ⟨t, leftover⟩ := tl
          dsimp only
          by_cases hemp : leftover.isEmpty
          · rw [if_pos hemp]
            exact processTlvTree_mono t store key h
          · rw [if_neg hemp]
            exact processBuf_mono fuel _ leftover key (processTlvTree_mono t store key h)

theorem process_tlv_mono (store : TagStore) (buf : List Nat) (key : String)
    (h : (get_tag_value store key).isSome = true) :
    (get_tag_value (process_tlv store buf) key).isSome = true :=
  processBuf_mono (buf.length + 1) store buf key h

theorem send_apdu_store_mono (iface : List Nat → Option (List Nat)) (fuel : Nat)
    (store : TagStore) (apdu : List Nat) (key : String)
    (h : (get_tag_value store key).isSome = true) :
    (get_tag_value (send_apdu iface fuel store apdu).2 key).isSome = true := by
  unfold send_apdu
  cases send_apdu_loop iface apdu fuel apdu [] [] with
  | crash => exact h
  | err => exact h
  | ok x =>
      obtain ⟨trace, trailer, data⟩ := x
      dsimp only
      by_cases hemp : data.isEmpty
      · rw [if_pos hemp]
        exact h
      · rw [if_neg hemp]
        exact process_tlv_mono store data key h

theorem read_record_store_mono (iface : List Nat → Option (List Nat)) (fuel : Nat)
    (store : TagStore) (sfi ri : Nat) (key : String)
    (h : (get_tag_value store key).isSome = true) :
    (get_tag_value (read_record iface fuel store sfi ri).2 key).isSome = true := by
  unfold read_record
  dsimp only
  have hm := send_apdu_store_mono iface fuel store
    [0x00, 0xB2, ri % 256, ((sfi <<< 3) ||| 0x04) % 256, 0x00] key h
  rcases hse : send_apdu iface fuel store
    [0x00, 0xB2, ri % 256, ((sfi <<< 3) ||| 0x04) % 256, 0x00] with ⟨res, s⟩
  rw [hse] at hm
  rcases res with _ | _ | x
  · exact hm
  · exact hm
  · rcases x with ⟨trace, trailer, data⟩
    dsimp only
    by_cases hc : (is_success_response trailer && !data.isEmpty) = true
    · rw [if_pos hc]
      exact hm
    · rw [if_neg hc]
      exact hm

theorem afl_record_loop_store_mono (iface : List Nat → Option (List Nat))
    (fuel sfi : Nat) :
    ∀ (indices : List Nat) (remaining : Nat) (store : TagStore) (da : List Nat)
      (store2 : TagStore) (da2 : List Nat) (rem2 : Nat) (key : String),
      afl_record_loop iface fuel sfi indices remaining store da
        = .ok (store2, da2, rem2) →
      (get_tag_value store key).isSome = true →
      (get_tag_value store2 key).isSome = true := by
  intro indices
  induction indices with
  | nil =>
      intro remaining store da store2 da2 rem2 key h hp
      rw [afl_record_loop] at h
      simp only [RunResult.ok.injEq, Prod.mk.injEq] at h
      rw [← h.1]
      exact hp
  | cons idx rest ih =>
      intro remaining store da store2 da2 rem2 key h hp
      rw [afl_record_loop] at h
      have hrr := read_record_store_mono iface fuel store sfi idx key hp
      rcases hread : read_record iface fuel store sfi idx with ⟨res, s1⟩
      rw [hread] at h hrr
      rcases res with _ | _ | x
      · exact absurd h (by simp)
      · exact absurd h (by simp)
      · rcases x with _ | data
        · dsimp only at h hrr
          exact ih remaining s1 da store2 da2 rem2 key h hrr
        · dsimp only at h hrr
          by_cases h70 : data.headD 0 ≠ 0x70
          · rw [if_pos h70] at h
            exact absurd h (by simp)
          rw [if_neg h70] at h
          by_cases hrem : remaining > 0
          · rw [if_pos hrem] at h
            by_cases hsfi : sfi ≤ 10
            · rw [if_pos hsfi] at h
              cases hpt : parse_tlv data with
              | none =>
                  rw [hpt] at h
                  exact absurd h (by simp)
              | some t =>
                  rw [hpt] at h
                  cases t with
                  | cons tag children =>
                      dsimp only at h
                      exact ih (remaining - 1) s1 _ store2 da2 rem2 key h hrr
                  | prim tag v =>
                      dsimp only at h
                      exact ih (remaining - 1) s1 da store2 da2 rem2 key h hrr
            · rw [if_neg hsfi] at h
              exact ih (remaining - 1) s1 _ store2 da2 rem2 key h hrr
          · rw [if_neg hrem] at h
            exact ih remaining s1 da store2 da2 rem2 key h hrr

theorem afl_group_loop_store_mono (iface : List Nat → Option (List Nat)) (fuel : Nat) :
    ∀ (groups : List (Nat × Nat × Nat × Nat)) (store : TagStore) (da : List Nat)
      (store2 : TagStore) (da2 : List Nat) (key : String),
      afl_group_loop iface fuel groups store da = .ok (store2, da2) →
      (get_tag_value store key).isSome = true →
      (get_tag_value store2 key).isSome = true := by
  intro groups
  induction groups with
  | nil =>
      intro store da store2 da2 key h hp
      rw [afl_group_loop] at h
      simp only [RunResult.ok.injEq, Prod.mk.injEq] at h
      rw [← h.1]
      exact hp
  | cons g rest ih =>
      intro store da store2 da2 key h hp
      obtain ⟨sfiByte, first, last, nAuth⟩ := g
      rw [afl_group_loop] at h
      rcases hrl : afl_record_loop iface fuel (sfiByte >>> 3)
          (List.range' first ((last + 1) % 256 - first)) nAuth store da
        with _ | _ | x
      · rw [hrl] at h
        exact absurd h (by simp)
      · rw [hrl] at h
        exact absurd h (by simp)
      · rw [hrl] at h
        rcases x with ⟨s1, da1, rem1⟩
        dsimp only at h
        have hs1 := afl_record_loop_store_mono iface fuel (sfiByte >>> 3)
          (List.range' first ((last + 1) % 256 - first)) nAuth store da s1 da1 rem1 key
          hrl hp
        exact ih s1 da1 store2 da2 key h hs1

theorem gpo_after_template_tags (iface : List Nat → Option (List Nat)) (fuel : Nat)
    (icc : Icc) (s1 : TagStore) (da : List Nat) (s2 : TagStore) (icc2 : Icc)
    (h : gpo_after_template iface fuel icc s1 = (.ok da, s2, icc2)) :
    (get_tag_value s2 "82").isSome = true
    ∧ (get_tag_value s2 "94").isSome = true
    ∧ (get_tag_value s2 "9F07").isSome = true := by
  unfold gpo_after_template at h
  cases h94 : get_tag_value s1 "94" <;> rw [h94] at h
  · exact absurd h (by simp)
  rename_i afl
  dsimp only at h
  cases hg : aflGroups afl <;> rw [hg] at h
  · exact absurd h (by simp)
  rename_i groups
  dsimp only at h
  rcases hloop : afl_group_loop iface fuel groups s1 [] with _ | _ | x <;> rw [hloop] at h
  · exact absurd h (by simp)
  · exact absurd h (by simp)
  rcases x with ⟨sx, dauth⟩
  dsimp only at h
  cases h82 : get_tag_value sx "82" <;> rw [h82] at h
  · exact absurd h (by simp)
  rename_i aip
  dsimp only at h
  cases aip with
  | nil => exact absurd h (by simp)
  | cons b1 aiprest =>
  dsimp only at h
  rcases hcvm : cvm_rules_from_store sx b1 with _ | _ | rules <;> rw [hcvm] at h
  · exact absurd h (by simp)
  · exact absurd h (by simp)
  dsimp only at h
  cases h9f : get_tag_value sx "9F07" <;> rw [h9f] at h
  · exact absurd h (by simp)
  rename_i t9f07
  dsimp only at h
  cases t9f07 with
  | nil => exact absurd h (by simp)
  | cons auc1 ttail =>
  cases ttail with
  | nil => exact absurd h (by simp)
  | cons auc2 trest =>
  simp only [Prod.mk.injEq, RunResult.ok.injEq] at h
  obtain ⟨hda, hs2, hicc⟩ := h
  subst hs2
  have h94x : (get_tag_value sx "94").isSome = true :=
    afl_group_loop_store_mono iface fuel groups s1 [] sx dauth "94" hloop
      (by simp [h94])
  exact ⟨by simp [h82], h94x, by simp [h9f]⟩

/-- C1 (amended): for every run of `handle_get_processing_options` that
returns success, the tag store afterwards contains values for the tags
`82`, `94` and `9F07`. -/
theorem gpo_success_tags_present (iface : List Nat → Option (List Nat)) (fuel : Nat)
    (store : TagStore) (icc : Icc) (da : List Nat) (s2 : TagStore) (icc2 : Icc)
    (h : handle_get_processing_options iface fuel store icc = (.ok da, s2, icc2)) :
    (get_tag_value s2 "82").isSome = true
    ∧ (get_tag_value s2 "94").isSome = true
    ∧ (get_tag_value s2 "9F07").isSome = true := by
  unfold handle_get_processing_options at h
  rcases hsend : send_apdu iface fuel store [0x80, 0xA8, 0x00, 0x00, 0x02, 0x83, 0x00]
    with ⟨res, s⟩
  rw [hsend] at h
  rcases res with _ | _ | x
  · exact absurd h (by simp)
  · exact absurd h (by simp)
  rcases x with ⟨trace, trailer, data⟩
  dsimp only at h
  by_cases hfail : (!is_success_response trailer) = true
  · rw [if_pos hfail] at h
    exact absurd h (by simp)
  rw [if_neg hfail] at h
  cases data with
  | nil => exact absurd h (by simp)
  | cons d0 dtail =>
  dsimp only at h
  by_cases hc1 : d0 = 0x80 ∧ (d0 :: dtail).length < 4
  · rw [if_pos hc1] at h
    exact absurd h (by simp)
  rw [if_neg hc1] at h
  by_cases hc2 : d0 ≠ 0x80 ∧ d0 ≠ 0x77
  · rw [if_pos hc2] at h
    exact absurd h (by simp)
  rw [if_neg hc2] at h
  exact gpo_after_template_tags iface fuel icc _ da s2 icc2 h

/-- C1 witness: instantiates `gpo_success_tags_present` on the concrete
`ifaceC1` run, discharging the success hypothesis by evaluation. -/
theorem gpo_success_tags_witness :
    (get_tag_value gpoOutStore "82").isSome = true
    ∧ (get_tag_value gpoOutStore "94").isSome = true
    ∧ (get_tag_value gpoOutStore "9F07").isSome = true :=
  gpo_success_tags_present ifaceC1 2 storeC1 iccNew [] gpoOutStore gpoOutIcc (by decide)

/-- C1 counterexample: a run of `handle_get_processing_options` (card
`ifaceC1`: template-`80` response, AIP `08 00` with bit 4 of byte 1
clear, empty AFL; initial store holding only `9F07`) that returns
success while the tag store afterwards holds no value for `8E`, `8C`
or `9F4A`. -/
theorem gpo_success_without_8e_8c_9f4a :
    (handle_get_processing_options ifaceC1 2 storeC1 iccNew).1 = .ok []
    ∧ get_tag_value (handle_get_processing_options ifaceC1 2 storeC1 iccNew).2.1 "8E"
        = none
    ∧ get_tag_value (handle_get_processing_options ifaceC1 2 storeC1 iccNew).2.1 "8C"
        = none
    ∧ get_tag_value (handle_get_processing_options ifaceC1 2 storeC1 iccNew).2.1 "9F4A"
        = none := by
  decide
